import Mathlib

/-!
Verification of the texture-layout transcoding engine of gust_tools
(src/dds.h and src/gust_g1t.c) against its natural-language specification.

Conventions of the shallow embedding:
* C `enum DDS_FORMAT` identifiers are natural-number codes, numbered exactly
  as in the C enum declaration order in src/dds.h, so that the numeric
  comparisons performed by the source (for example
  `format >= DDS_FORMAT_ABGR4 && format <= DDS_FORMAT_RGBA8`) are preserved.
* a C `assert` is a fatal abort; functions containing asserts return
  `Option` and yield `none` when an assert (or undefined behaviour such as a
  division by zero) would fire.
* machine integers are `Nat`; every arithmetic step of the translated code
  is checked to stay below `2 ^ 32`, so no wrap-around modelling is needed
  except where the source itself truncates (casts to `uint16_t` etc.),
  which is modelled by an explicit `% 2 ^ 16` and friends.
* pixel buffers are `List Nat` of bytes (each `< 256` by hypothesis) except
  in `mortonize`, which the source manipulates purely at the granularity of
  `bytes_per_element`-sized chunks (`memcpy` of whole elements); there a
  buffer is a `List α` of opaque elements.
-/

namespace GustTools

/-! ## Format catalogue (src/dds.h) -/

def DDS_FORMAT_UNKNOWN : Nat := 0
def DDS_FORMAT_ABGR4 : Nat := 1
def DDS_FORMAT_ARGB4 : Nat := 2
def DDS_FORMAT_GRAB4 : Nat := 3
def DDS_FORMAT_RGBA4 : Nat := 4
def DDS_FORMAT_ABGR8 : Nat := 5
def DDS_FORMAT_ARGB8 : Nat := 6
def DDS_FORMAT_GRAB8 : Nat := 7
def DDS_FORMAT_RGBA8 : Nat := 8
def DDS_FORMAT_RXGB8 : Nat := 9
def DDS_FORMAT_BGR8 : Nat := 10
def DDS_FORMAT_R8 : Nat := 11
def DDS_FORMAT_UVER : Nat := 12
def DDS_FORMAT_DXT1 : Nat := 13
def DDS_FORMAT_DXT2 : Nat := 14
def DDS_FORMAT_DXT3 : Nat := 15
def DDS_FORMAT_DXT4 : Nat := 16
def DDS_FORMAT_DXT5 : Nat := 17
def DDS_FORMAT_DX10 : Nat := 18
def DDS_FORMAT_BC4 : Nat := 19
def DDS_FORMAT_BC5 : Nat := 20
def DDS_FORMAT_BC6 : Nat := 21
def DDS_FORMAT_BC7 : Nat := 22
def DDS_FORMAT_BC6H : Nat := 23
def DDS_FORMAT_BC7L : Nat := 24
def DDS_FORMAT_ATI1 : Nat := 25
def DDS_FORMAT_ATI2 : Nat := 26
def DDS_FORMAT_A2XY : Nat := 27
def DDS_FORMAT_DDS : Nat := 28
def DDS_FORMAT_NVTT : Nat := 29

/-- Modelled from the spec: `DDS_FORMAT_ARGB16` is referenced by
src/gust_g1t.c (texture type 0x03, a 64 bpp RGBA half-float format) but its
enum declaration is not in the copy of dds.h under src/.  It is given a
code outside the declared enum range; all that the code under src/ relies
on is that it is not between `DDS_FORMAT_ABGR4` and `DDS_FORMAT_RGBA8`. -/
def DDS_FORMAT_ARGB16 : Nat := 30

/-- Modelled from the spec: `DDS_FORMAT_ARGB32` is referenced by
src/gust_g1t.c (texture type 0x04, a 128 bpp RGBA float format) but its
enum declaration is not in the copy of dds.h under src/. -/
def DDS_FORMAT_ARGB32 : Nat := 31

/-- The formats of the `return 4` case list of `dds_bwh` in src/dds.h. -/
def dds_bwh_4_formats : List Nat :=
  [DDS_FORMAT_DXT1, DDS_FORMAT_DXT2, DDS_FORMAT_DXT3, DDS_FORMAT_DXT4,
   DDS_FORMAT_DXT5, DDS_FORMAT_DX10, DDS_FORMAT_BC4, DDS_FORMAT_BC5,
   DDS_FORMAT_BC6, DDS_FORMAT_BC6H, DDS_FORMAT_BC7, DDS_FORMAT_ATI1,
   DDS_FORMAT_ATI2]

/-- DDS format: pixel block width/height (assumed square); `dds_bwh` from
src/dds.h.  The C switch falls to `default: return 1` for every identifier
not in the block-compressed case list. -/
def dds_bwh (f : Nat) : Nat :=
  if f ∈ dds_bwh_4_formats then 4 else 1

/-- DDS format: bytes per pixel block; `dds_bpb` from src/dds.h.  The
`default` arm of the C switch is `assert(false); return 0;`, modelled as
`none`. -/
def dds_bpb (f : Nat) : Option Nat :=
  if f = DDS_FORMAT_BGR8 then some 3
  else if f ∈ [DDS_FORMAT_ABGR8, DDS_FORMAT_ARGB8, DDS_FORMAT_GRAB8,
               DDS_FORMAT_RGBA8, DDS_FORMAT_RXGB8] then some 4
  else if f ∈ [DDS_FORMAT_ABGR4, DDS_FORMAT_ARGB4, DDS_FORMAT_GRAB4,
               DDS_FORMAT_RGBA4] then some 2
  else if f = DDS_FORMAT_R8 then some 1
  else if f ∈ [DDS_FORMAT_DXT1, DDS_FORMAT_BC4, DDS_FORMAT_ATI1] then some 8
  else if f ∈ [DDS_FORMAT_DXT2, DDS_FORMAT_DXT3, DDS_FORMAT_DXT4,
               DDS_FORMAT_DXT5, DDS_FORMAT_DX10, DDS_FORMAT_BC5,
               DDS_FORMAT_BC6, DDS_FORMAT_BC6H, DDS_FORMAT_BC7,
               DDS_FORMAT_ATI2] then some 16
  else none

/-- DDS format: bits per individual pixel; `dds_bpp` from src/dds.h.  The
`default` arm of the C switch is `assert(false); return 0;`, modelled as
`none`. -/
def dds_bpp (f : Nat) : Option Nat :=
  if f = DDS_FORMAT_BGR8 then some 24
  else if f ∈ [DDS_FORMAT_ABGR8, DDS_FORMAT_ARGB8, DDS_FORMAT_GRAB8,
               DDS_FORMAT_RGBA8, DDS_FORMAT_RXGB8] then some 32
  else if f ∈ [DDS_FORMAT_ABGR4, DDS_FORMAT_ARGB4, DDS_FORMAT_GRAB4,
               DDS_FORMAT_RGBA4] then some 16
  else if f = DDS_FORMAT_R8 then some 8
  else if f ∈ [DDS_FORMAT_DXT1, DDS_FORMAT_BC4, DDS_FORMAT_ATI1] then some 4
  else if f ∈ [DDS_FORMAT_DXT2, DDS_FORMAT_DXT3, DDS_FORMAT_DXT4,
               DDS_FORMAT_DXT5, DDS_FORMAT_DX10, DDS_FORMAT_BC5,
               DDS_FORMAT_BC6, DDS_FORMAT_BC6H, DDS_FORMAT_BC7,
               DDS_FORMAT_ATI2] then some 8
  else none

/-- The set of format codes on which `dds_bpb` (equivalently `dds_bpp`)
does not hit the asserting `default` arm. -/
def dds_supported_formats : List Nat :=
  [DDS_FORMAT_ABGR4, DDS_FORMAT_ARGB4, DDS_FORMAT_GRAB4, DDS_FORMAT_RGBA4,
   DDS_FORMAT_ABGR8, DDS_FORMAT_ARGB8, DDS_FORMAT_GRAB8, DDS_FORMAT_RGBA8,
   DDS_FORMAT_RXGB8, DDS_FORMAT_BGR8, DDS_FORMAT_R8,
   DDS_FORMAT_DXT1, DDS_FORMAT_DXT2, DDS_FORMAT_DXT3, DDS_FORMAT_DXT4,
   DDS_FORMAT_DXT5, DDS_FORMAT_DX10, DDS_FORMAT_BC4, DDS_FORMAT_BC5,
   DDS_FORMAT_BC6, DDS_FORMAT_BC6H, DDS_FORMAT_BC7, DDS_FORMAT_ATI1,
   DDS_FORMAT_ATI2]

/-- The thirty format codes declared by `enum DDS_FORMAT` in src/dds.h. -/
def dds_declared_formats : List Nat := List.range 30

/-- The `MIPMAP_SIZE(f, l, w, h)` macro of src/dds.h, literally:
`max(1, ((w / (1 << l) + dds_bwh(f) - 1) / dds_bwh(f))) * max(1, ...) *
dds_bpb(f)`.  It inherits the assert of `dds_bpb` for unsupported
formats. -/
def mipmap_size (f l w h : Nat) : Option Nat :=
  (dds_bpb f).map fun bpb =>
    max 1 ((w / (1 <<< l) + dds_bwh f - 1) / dds_bwh f) *
    max 1 ((h / (1 <<< l) + dds_bwh f - 1) / dds_bwh f) * bpb

/-- The `expected_texture_size` accumulation loop of the extraction path of
src/gust_g1t.c (lines 1162-1164): the sum of `nb_frames * MIPMAP_SIZE`
over mip levels `0 .. mips - 1`. -/
def expected_texture_size (f w h nb_frames : Nat) : Nat → Option Nat
  | 0 => some 0
  | n + 1 => do
      let t ← expected_texture_size f w h nb_frames n
      let m ← mipmap_size f n w h
      pure (t + nb_frames * m)

/-! ## Payload-size reconciliation on the extraction path
(src/gust_g1t.c lines 1177-1194) -/

/-- Outcome of the `texture_size` versus `expected_texture_size` comparison
on the extraction path of src/gust_g1t.c:
* `fatalTooSmall` - `texture_size < expected`: error, texture abandoned;
* `warnNonMultiple` - larger but not an exact multiple: a warning is
  printed and processing continues (with `expected` raised to the actual
  size);
* `cubemap` - exactly six times larger: the `G1T_FLAG_CUBE_MAP` flag is
  set and processing continues;
* `arrayMismatch` - an exact multiple other than six: error, texture
  abandoned;
* `exact` - sizes agree. -/
inductive SizeReconcile where
  | fatalTooSmall
  | warnNonMultiple
  | cubemap
  | arrayMismatch
  | exact
deriving DecidableEq, Repr

/-- The size-reconciliation branch structure of src/gust_g1t.c lines
1177-1194, translated verbatim. -/
def reconcile_texture_size (texture_size expected : Nat) : SizeReconcile :=
  if texture_size < expected then .fatalTooSmall
  else if expected < texture_size then
    if texture_size % expected ≠ 0 then .warnNonMultiple
    else if texture_size / expected = 6 then .cubemap
    else .arrayMismatch
  else .exact

/-! ## Helper lemmas about the format catalogue -/

theorem dds_bwh_pos (f : Nat) : 0 < dds_bwh f := by
  unfold dds_bwh; split <;> norm_num

theorem dds_bpb_eq_none_of_ge (n : Nat) (h : 30 ≤ n) : dds_bpb n = none := by
  unfold dds_bpb
  rw [if_neg (by simp [DDS_FORMAT_BGR8]; omega),
      if_neg (by simp [DDS_FORMAT_ABGR8, DDS_FORMAT_ARGB8, DDS_FORMAT_GRAB8,
                       DDS_FORMAT_RGBA8, DDS_FORMAT_RXGB8]; omega),
      if_neg (by simp [DDS_FORMAT_ABGR4, DDS_FORMAT_ARGB4, DDS_FORMAT_GRAB4,
                       DDS_FORMAT_RGBA4]; omega),
      if_neg (by simp [DDS_FORMAT_R8]; omega),
      if_neg (by simp [DDS_FORMAT_DXT1, DDS_FORMAT_BC4, DDS_FORMAT_ATI1]; omega),
      if_neg (by simp [DDS_FORMAT_DXT2, DDS_FORMAT_DXT3, DDS_FORMAT_DXT4,
                       DDS_FORMAT_DXT5, DDS_FORMAT_DX10, DDS_FORMAT_BC5,
                       DDS_FORMAT_BC6, DDS_FORMAT_BC6H, DDS_FORMAT_BC7,
                       DDS_FORMAT_ATI2]; omega)]

theorem dds_bpp_eq_none_of_ge (n : Nat) (h : 30 ≤ n) : dds_bpp n = none := by
  unfold dds_bpp
  rw [if_neg (by simp [DDS_FORMAT_BGR8]; omega),
      if_neg (by simp [DDS_FORMAT_ABGR8, DDS_FORMAT_ARGB8, DDS_FORMAT_GRAB8,
                       DDS_FORMAT_RGBA8, DDS_FORMAT_RXGB8]; omega),
      if_neg (by simp [DDS_FORMAT_ABGR4, DDS_FORMAT_ARGB4, DDS_FORMAT_GRAB4,
                       DDS_FORMAT_RGBA4]; omega),
      if_neg (by simp [DDS_FORMAT_R8]; omega),
      if_neg (by simp [DDS_FORMAT_DXT1, DDS_FORMAT_BC4, DDS_FORMAT_ATI1]; omega),
      if_neg (by simp [DDS_FORMAT_DXT2, DDS_FORMAT_DXT3, DDS_FORMAT_DXT4,
                       DDS_FORMAT_DXT5, DDS_FORMAT_DX10, DDS_FORMAT_BC5,
                       DDS_FORMAT_BC6, DDS_FORMAT_BC6H, DDS_FORMAT_BC7,
                       DDS_FORMAT_ATI2]; omega)]

theorem dds_bwh_eq_one_of_ge (n : Nat) (h : 30 ≤ n) : dds_bwh n = 1 := by
  unfold dds_bwh
  rw [if_neg (by simp [dds_bwh_4_formats, DDS_FORMAT_DXT1, DDS_FORMAT_DXT2,
        DDS_FORMAT_DXT3, DDS_FORMAT_DXT4, DDS_FORMAT_DXT5, DDS_FORMAT_DX10,
        DDS_FORMAT_BC4, DDS_FORMAT_BC5, DDS_FORMAT_BC6, DDS_FORMAT_BC6H,
        DDS_FORMAT_BC7, DDS_FORMAT_ATI1, DDS_FORMAT_ATI2]; omega)]

theorem dds_bpb_isSome_iff (n : Nat) :
    (dds_bpb n).isSome ↔ n ∈ dds_supported_formats := by
  rcases Nat.lt_or_ge n 30 with h | h
  · interval_cases n <;> decide
  · rw [dds_bpb_eq_none_of_ge n h]
    simp [dds_supported_formats, DDS_FORMAT_ABGR4, DDS_FORMAT_ARGB4,
      DDS_FORMAT_GRAB4, DDS_FORMAT_RGBA4, DDS_FORMAT_ABGR8, DDS_FORMAT_ARGB8,
      DDS_FORMAT_GRAB8, DDS_FORMAT_RGBA8, DDS_FORMAT_RXGB8, DDS_FORMAT_BGR8,
      DDS_FORMAT_R8, DDS_FORMAT_DXT1, DDS_FORMAT_DXT2, DDS_FORMAT_DXT3,
      DDS_FORMAT_DXT4, DDS_FORMAT_DXT5, DDS_FORMAT_DX10, DDS_FORMAT_BC4,
      DDS_FORMAT_BC5, DDS_FORMAT_BC6, DDS_FORMAT_BC6H, DDS_FORMAT_BC7,
      DDS_FORMAT_ATI1, DDS_FORMAT_ATI2]
    omega

theorem dds_bpp_isSome_iff (n : Nat) :
    (dds_bpp n).isSome ↔ n ∈ dds_supported_formats := by
  rcases Nat.lt_or_ge n 30 with h | h
  · interval_cases n <;> decide
  · rw [dds_bpp_eq_none_of_ge n h]
    simp [dds_supported_formats, DDS_FORMAT_ABGR4, DDS_FORMAT_ARGB4,
      DDS_FORMAT_GRAB4, DDS_FORMAT_RGBA4, DDS_FORMAT_ABGR8, DDS_FORMAT_ARGB8,
      DDS_FORMAT_GRAB8, DDS_FORMAT_RGBA8, DDS_FORMAT_RXGB8, DDS_FORMAT_BGR8,
      DDS_FORMAT_R8, DDS_FORMAT_DXT1, DDS_FORMAT_DXT2, DDS_FORMAT_DXT3,
      DDS_FORMAT_DXT4, DDS_FORMAT_DXT5, DDS_FORMAT_DX10, DDS_FORMAT_BC4,
      DDS_FORMAT_BC5, DDS_FORMAT_BC6, DDS_FORMAT_BC6H, DDS_FORMAT_BC7,
      DDS_FORMAT_ATI1, DDS_FORMAT_ATI2]
    omega

theorem mem_supported_of_bpb_eq_some {n b : Nat} (h : dds_bpb n = some b) :
    n ∈ dds_supported_formats :=
  (dds_bpb_isSome_iff n).1 (by rw [h]; rfl)

/-- Mipmap size at level 0, in the ceiling-division form of the spec. -/
theorem mipmap_size_level0 (f w h b : Nat) (hb : dds_bpb f = some b)
    (hw : 0 < w) (hh : 0 < h) :
    mipmap_size f 0 w h =
      some ((w ⌈/⌉ dds_bwh f) * (h ⌈/⌉ dds_bwh f) * b) := by
  have hbw := dds_bwh_pos f
  unfold mipmap_size
  rw [hb, Option.map_some']
  have e1 : ∀ d : Nat, 0 < d → max 1 ((d / (1 <<< 0) + dds_bwh f - 1) / dds_bwh f)
      = d ⌈/⌉ dds_bwh f := by
    intro d hd
    have : d / (1 <<< 0) = d := by norm_num
    rw [this, Nat.ceilDiv_eq_add_pred_div]
    exact Nat.max_eq_right ((Nat.one_le_div_iff hbw).2 (by omega))
  rw [e1 w hw, e1 h hh]

/-! ## Claim C5 -/

/-- Claim C5: the mip-level size function computes
`max(1, ceil((width/2^level)/block_w)) * max(1, ceil((height/2^level)/block_h))
* bytes_per_block` for every supported format, level, width and height
(the inner `width/2^level` being the integer division performed by the
code); and for a 256x256 DXT1 (BC1) texture with 9 mip levels, 1 frame and
no cubemap, the total payload size equals the sum over L=0..8 of
`max(1, 64/2^L)^2 * 8`. -/
theorem mipmap_size_spec :
    (∀ f l w h b, dds_bpb f = some b →
      mipmap_size f l w h =
        some (max 1 ((w / 2 ^ l) ⌈/⌉ dds_bwh f) *
              max 1 ((h / 2 ^ l) ⌈/⌉ dds_bwh f) * b)) ∧
    expected_texture_size DDS_FORMAT_DXT1 256 256 1 9 =
      some (((List.range 9).map fun L => max 1 (64 / 2 ^ L) * max 1 (64 / 2 ^ L) * 8).sum) := by
  constructor
  · intro f l w h b hb
    unfold mipmap_size
    rw [hb, Option.map_some']
    have e : ∀ d : Nat, d / (1 <<< l) = d / 2 ^ l := by
      intro d; rw [Nat.shiftLeft_eq, Nat.one_mul]
    rw [e w, e h, Nat.ceilDiv_eq_add_pred_div, Nat.ceilDiv_eq_add_pred_div]
  · decide

/-- Witness for C5 at the concrete input `f = DXT1`, `l = 2`,
`w = h = 256`. -/
theorem mipmap_size_spec_witness :
    dds_bpb DDS_FORMAT_DXT1 = some 8 ∧
    mipmap_size DDS_FORMAT_DXT1 2 256 256 =
      some (max 1 ((256 / 2 ^ 2) ⌈/⌉ dds_bwh DDS_FORMAT_DXT1) *
            max 1 ((256 / 2 ^ 2) ⌈/⌉ dds_bwh DDS_FORMAT_DXT1) * 8) :=
  ⟨by decide, mipmap_size_spec.1 DDS_FORMAT_DXT1 2 256 256 8 (by decide)⟩

/-! ## Claim C7 -/

/-- Claim C7 counterexample: `dds_bwh` returns the silent default 1 for the
identifier 999, which is outside the defined enum, without any error; and
`dds_bpb`/`dds_bpp` hit their asserting default (no value) on
`DDS_FORMAT_BC7L`, which IS a defined `TextureFormat`, so the lookups are
not total on the defined set either. -/
theorem dds_catalog_counterexample :
    dds_bwh 999 = 1 ∧ 999 ∉ dds_declared_formats ∧
    DDS_FORMAT_BC7L ∈ dds_declared_formats ∧
    dds_bpb DDS_FORMAT_BC7L = none ∧ dds_bpp DDS_FORMAT_BC7L = none := by
  refine ⟨?_, by decide, by decide, by decide, by decide⟩
  exact dds_bwh_eq_one_of_ge 999 (by omega)

/-- Claim C7 amended: the block-dimension lookup `dds_bwh` is total and
deterministic on ALL identifiers, silently returning the default 1 for
every identifier outside its block-compressed case list (including
identifiers outside the defined enum); the `dds_bpb` and `dds_bpp` lookups
are defined (deterministically) exactly on the 24 supported formats and
fail with a fatal assertion - not an unknown-format error report - on
every other identifier, including the six defined formats UNKNOWN, UVER,
BC7L, A2XY, DDS and NVTT. -/
theorem dds_catalog_spec :
    (∀ n, n ∉ dds_bwh_4_formats → dds_bwh n = 1) ∧
    (∀ n, (dds_bpb n).isSome ↔ n ∈ dds_supported_formats) ∧
    (∀ n, (dds_bpp n).isSome ↔ n ∈ dds_supported_formats) ∧
    (∀ n, n ∈ dds_declared_formats ∧ dds_bpb n = none ↔
        n ∈ [DDS_FORMAT_UNKNOWN, DDS_FORMAT_UVER, DDS_FORMAT_BC7L,
             DDS_FORMAT_A2XY, DDS_FORMAT_DDS, DDS_FORMAT_NVTT]) := by
  refine ⟨fun n hn => by unfold dds_bwh; rw [if_neg hn],
    dds_bpb_isSome_iff, dds_bpp_isSome_iff, fun n => ?_⟩
  rcases Nat.lt_or_ge n 30 with h | h
  · interval_cases n <;> decide
  · rw [dds_bpb_eq_none_of_ge n h]
    simp [dds_declared_formats, DDS_FORMAT_UNKNOWN, DDS_FORMAT_UVER,
      DDS_FORMAT_BC7L, DDS_FORMAT_A2XY, DDS_FORMAT_DDS, DDS_FORMAT_NVTT]
    omega

/-- Witness for the amended C7 at concrete identifiers: `dds_bwh` of the
out-of-enum identifier 4242 is the silent default 1, and `dds_bpb` of the
defined format UVER has no value. -/
theorem dds_catalog_spec_witness :
    (4242 ∉ dds_bwh_4_formats ∧ dds_bwh 4242 = 1) ∧
    ((dds_bpb DDS_FORMAT_UVER).isSome ↔ DDS_FORMAT_UVER ∈ dds_supported_formats) :=
  ⟨⟨by decide, dds_catalog_spec.1 4242 (by decide)⟩,
    dds_catalog_spec.2.1 DDS_FORMAT_UVER⟩

/-! ## Claim C9 -/

/-- Claim C9 counterexample: at `DXT1` the claimed identity
`bytes_per_block * block_w * block_h * 8 = bits_per_pixel * block_w * block_h`
reads `8 * 4 * 4 * 8 = 4 * 4 * 4`, which is false (1024 vs 64). -/
theorem dds_block_identity_counterexample :
    dds_bpb DDS_FORMAT_DXT1 = some 8 ∧ dds_bpp DDS_FORMAT_DXT1 = some 4 ∧
    dds_bwh DDS_FORMAT_DXT1 = 4 ∧
    ¬ (8 * dds_bwh DDS_FORMAT_DXT1 * dds_bwh DDS_FORMAT_DXT1 * 8 =
       4 * dds_bwh DDS_FORMAT_DXT1 * dds_bwh DDS_FORMAT_DXT1) := by
  decide

/-- Claim C9 amended: for every supported format the correct identity is
`bytes_per_block * 8 = bits_per_pixel * block_w * block_h` (bits per block
counted once, not multiplied by the block area again), and the mip-level
size at level 0 is `ceil(width/block_w) * ceil(height/block_h) *
bytes_per_block`. -/
theorem dds_block_identity_spec :
    ∀ n b p, dds_bpb n = some b → dds_bpp n = some p →
      b * 8 = p * (dds_bwh n * dds_bwh n) ∧
      ∀ w h, 0 < w → 0 < h →
        mipmap_size n 0 w h =
          some ((w ⌈/⌉ dds_bwh n) * (h ⌈/⌉ dds_bwh n) * b) := by
  intro n b p hb hp
  refine ⟨?_, fun w h hw hh => mipmap_size_level0 n w h b hb hw hh⟩
  have hn := mem_supported_of_bpb_eq_some hb
  fin_cases hn <;>
    (injection hb with h1; injection hp with h2; subst h1; subst h2; decide)

/-- Witness for the amended C9 at `f = DXT1`, `w = h = 17`. -/
theorem dds_block_identity_spec_witness :
    (dds_bpb DDS_FORMAT_DXT1 = some 8 ∧ dds_bpp DDS_FORMAT_DXT1 = some 4 ∧
     (0:Nat) < 17) ∧
    (8 * 8 = 4 * (dds_bwh DDS_FORMAT_DXT1 * dds_bwh DDS_FORMAT_DXT1) ∧
     mipmap_size DDS_FORMAT_DXT1 0 17 17 =
       some ((17 ⌈/⌉ dds_bwh DDS_FORMAT_DXT1) * (17 ⌈/⌉ dds_bwh DDS_FORMAT_DXT1) * 8)) :=
  ⟨⟨by decide, by decide, by decide⟩, by
    have h := dds_block_identity_spec DDS_FORMAT_DXT1 8 4 (by decide) (by decide)
    exact ⟨h.1, h.2 17 17 (by decide) (by decide)⟩⟩

/-! ## Claim C2 -/

/-- Claim C2 counterexample: an actual payload of 12 bytes against an
expected size of 8 is a non-divisor excess; the claim says this triggers a
size-mismatch error, but the code only prints a warning and continues
(`warnNonMultiple`), which is a different outcome from the error/break
taken for wrong integer factors (`arrayMismatch`). -/
theorem reconcile_counterexample :
    reconcile_texture_size 12 8 = SizeReconcile.warnNonMultiple ∧
    SizeReconcile.warnNonMultiple ≠ SizeReconcile.arrayMismatch ∧
    8 < 12 ∧ 12 % 8 ≠ 0 := by decide

/-- Claim C2 amended: on the extraction path, an actual size exactly 6
times the expected size reclassifies the texture as a cubemap; an actual
size at any other integer multiple (5x in particular) triggers the
size-mismatch error; an actual size smaller than expected is fatal; but an
actual size that exceeds the expected size WITHOUT being an exact multiple
of it only produces a warning and processing continues. -/
theorem reconcile_spec :
    ∀ e, 0 < e →
      reconcile_texture_size (6 * e) e = SizeReconcile.cubemap ∧
      reconcile_texture_size (5 * e) e = SizeReconcile.arrayMismatch ∧
      (∀ m, 1 < m → m ≠ 6 →
        reconcile_texture_size (m * e) e = SizeReconcile.arrayMismatch) ∧
      (∀ t, t < e → reconcile_texture_size t e = SizeReconcile.fatalTooSmall) ∧
      (∀ t, e < t → t % e ≠ 0 →
        reconcile_texture_size t e = SizeReconcile.warnNonMultiple) := by
  intro e he
  have hmul : ∀ m, 1 < m → m ≠ 6 →
      reconcile_texture_size (m * e) e = SizeReconcile.arrayMismatch := by
    intro m hm hm6
    unfold reconcile_texture_size
    rw [if_neg (by nlinarith), if_pos (by nlinarith),
        if_neg (by simp [Nat.mul_mod_left]),
        if_neg (by rw [Nat.mul_div_cancel m he]; exact hm6)]
  refine ⟨?_, hmul 5 (by norm_num) (by norm_num), hmul, ?_, ?_⟩
  · unfold reconcile_texture_size
    rw [if_neg (by omega), if_pos (by omega),
        if_neg (by simp [Nat.mul_mod_left]),
        if_pos (Nat.mul_div_cancel 6 he)]
  · intro t ht
    unfold reconcile_texture_size
    rw [if_pos ht]
  · intro t ht hmod
    unfold reconcile_texture_size
    rw [if_neg (by omega), if_pos ht, if_pos hmod]

/-- Witness for the amended C2 at `e = 8` (so actual sizes 48, 40, 4 and
12 exercise the four behaviours). -/
theorem reconcile_spec_witness :
    (0:Nat) < 8 ∧
    reconcile_texture_size 48 8 = SizeReconcile.cubemap ∧
    reconcile_texture_size 40 8 = SizeReconcile.arrayMismatch ∧
    reconcile_texture_size 4 8 = SizeReconcile.fatalTooSmall ∧
    reconcile_texture_size 12 8 = SizeReconcile.warnNonMultiple :=
  ⟨by decide,
   (reconcile_spec 8 (by decide)).1,
   (reconcile_spec 8 (by decide)).2.1,
   (reconcile_spec 8 (by decide)).2.2.2.1 4 (by decide),
   (reconcile_spec 8 (by decide)).2.2.2.2 12 (by decide) (by decide)⟩

/-! ## Row flip (src/gust_g1t.c lines 495-509) -/

/-- Decomposition of a buffer into scan lines of `ls` elements each, front
to back; the auxiliary view under which the copy loop of `flip` operates. -/
def toLines (ls : Nat) (l : List α) : List (List α) :=
  if _h1 : ls = 0 then []
  else if _h2 : l.isEmpty then []
  else l.take ls :: toLines ls (l.drop ls)
termination_by l.length
decreasing_by
  have h3 : l ≠ [] := fun hz => by simp [hz] at _h2
  have h4 : l.length ≠ 0 := fun hz => h3 (List.eq_nil_of_length_eq_zero hz)
  simp only [List.length_drop]
  omega

/-- The `flip` routine of src/gust_g1t.c: copies scan line `max_line - i`
of the source over scan line `i` of a scratch buffer, i.e. reverses the
order of the scan lines.  The two asserts (`bits_per_pixel % 8 == 0` and
`size % line_size == 0`) are modelled as `none`; so is `line_size == 0`,
for which the C computes `size % 0` (undefined behaviour); and so is
`size / line_size == 0` (only `size == 0` once the divisibility assert
has passed), for which `max_line = (size / line_size) - 1` underflows to
`0xFFFFFFFF` and the copy loop reads and writes far out of bounds. -/
def flip (bits_per_pixel : Nat) (buf : List α) (width : Nat) : Option (List α) :=
  if bits_per_pixel % 8 ≠ 0 then none
  else
    let line_size := width * (bits_per_pixel / 8)
    if line_size = 0 then none
    else if buf.length % line_size ≠ 0 then none
    else if buf.length / line_size = 0 then none
    else some ((toLines line_size buf).reverse.flatten)

theorem join_toLines (ls : Nat) (hls : 0 < ls) (l : List α) :
    (toLines ls l).flatten = l := by
  generalize hn : l.length = n
  induction n using Nat.strong_induction_on generalizing l with
  | _ n ih =>
    unfold toLines
    rw [dif_neg (by omega)]
    by_cases hemp : l.isEmpty
    · rw [dif_pos hemp, List.flatten_nil]
      exact (List.isEmpty_iff.1 hemp).symm
    · have h3 : l ≠ [] := fun hz => by simp [hz] at hemp
      have h4 : l.length ≠ 0 := fun hz => h3 (List.eq_nil_of_length_eq_zero hz)
      rw [dif_neg hemp, List.flatten_cons,
        ih (l.drop ls).length (by simp only [List.length_drop]; omega) (l.drop ls) rfl,
        List.take_append_drop]

theorem toLines_length_mem (ls : Nat) (hls : 0 < ls) (l : List α)
    (hdvd : ls ∣ l.length) : ∀ c ∈ toLines ls l, c.length = ls := by
  generalize hn : l.length = n
  induction n using Nat.strong_induction_on generalizing l with
  | _ n ih =>
    unfold toLines
    rw [dif_neg (by omega)]
    by_cases hemp : l.isEmpty
    · rw [dif_pos hemp]; simp
    · have h3 : l ≠ [] := fun hz => by simp [hz] at hemp
      have h4 : l.length ≠ 0 := fun hz => h3 (List.eq_nil_of_length_eq_zero hz)
      have hle : ls ≤ l.length := Nat.le_of_dvd (by omega) hdvd
      rw [dif_neg hemp]
      intro c hc
      rcases List.mem_cons.1 hc with rfl | hc
      · rw [List.length_take]; omega
      · exact ih (l.drop ls).length (by simp only [List.length_drop]; omega) (l.drop ls)
          (by simp only [List.length_drop]; exact Nat.dvd_sub' hdvd dvd_rfl)
          rfl c hc

theorem toLines_of_chunks (ls : Nat) (hls : 0 < ls) :
    ∀ cs : List (List α), (∀ c ∈ cs, c.length = ls) → toLines ls cs.flatten = cs := by
  intro cs
  induction cs with
  | nil =>
    intro h
    unfold toLines
    rw [List.flatten_nil, dif_neg (by omega),
        dif_pos (show ([] : List α).isEmpty = true from rfl)]
  | cons c cs ih =>
    intro hall
    have hc : c.length = ls := hall c (List.mem_cons_self c cs)
    have hcne : ¬ (c ++ cs.flatten).isEmpty := by
      intro hz
      have h0 : c ++ cs.flatten = [] := List.isEmpty_iff.1 hz
      have := congrArg List.length h0
      simp only [List.length_append, List.length_nil, hc] at this
      omega
    rw [List.flatten_cons]
    unfold toLines
    rw [dif_neg (by omega), dif_neg hcne, List.take_left' hc, List.drop_left' hc,
        ih (fun d hd => hall d (List.mem_cons_of_mem c hd))]

theorem join_length_uniform (ls : Nat) (cs : List (List α))
    (hall : ∀ c ∈ cs, c.length = ls) : cs.flatten.length = cs.length * ls := by
  induction cs with
  | nil => simp
  | cons c cs ih =>
    rw [List.flatten_cons, List.length_append,
        ih (fun d hd => hall d (List.mem_cons_of_mem c hd)),
        hall c (List.mem_cons_self c cs), List.length_cons]
    ring

/-! ## Claim C4 -/

/-- Claim C4 counterexample: `bits_per_pixel = 8` is a multiple of 8,
`width = 0` is a width, and the empty buffer has a length that is an exact
multiple of the scan-line byte length `0 * (8 / 8) = 0`; yet `flip` does
not return the buffer: the C code computes `size % line_size` with
`line_size == 0` (division by zero), modelled as `none`, so the double
flip is not the identity there. -/
theorem flip_counterexample :
    8 % 8 = 0 ∧ (0 * (8 / 8)) ∣ ([] : List Nat).length ∧
    flip 8 ([] : List Nat) 0 = none ∧
    (flip 8 ([] : List Nat) 0).bind (fun b => flip 8 b 0) ≠ some ([] : List Nat) := by
  decide

/-- Claim C4 amended: for every `bits_per_pixel` that is a POSITIVE
multiple of 8, every POSITIVE width, and every NON-EMPTY buffer whose
length is an exact multiple of one scan-line's byte length (so that the
scan-line length is nonzero, the division in the source is defined and
`max_line = size / line_size - 1` does not underflow), applying the row
flip twice with the same parameters returns the original buffer. -/
theorem flip_involutive (bpp width : Nat) (buf : List α)
    (h8 : bpp % 8 = 0) (hbpp : 0 < bpp) (hw : 0 < width) (hne : 0 < buf.length)
    (hdvd : (width * (bpp / 8)) ∣ buf.length) :
    (flip bpp buf width).bind (fun b => flip bpp b width) = some buf := by
  have hdiv8 : 0 < bpp / 8 := Nat.div_pos (by omega) (by omega)
  have hls : 0 < width * (bpp / 8) := by positivity
  set ls := width * (bpp / 8) with hlsdef
  have hchunks := toLines_length_mem ls hls buf hdvd
  have hchunksrev : ∀ c ∈ (toLines ls buf).reverse, c.length = ls := by
    intro c hc; exact hchunks c (List.mem_reverse.1 hc)
  have hlines : 0 < buf.length / ls :=
    Nat.one_le_div_iff hls |>.2 (Nat.le_of_dvd hne hdvd)
  have hstep1 : flip bpp buf width = some ((toLines ls buf).reverse.flatten) := by
    unfold flip
    rw [if_neg (by omega)]
    simp only [← hlsdef]
    rw [if_neg (by omega), if_neg (by
      push_neg
      exact Nat.mod_eq_zero_of_dvd hdvd), if_neg (by omega)]
  have hlen1 : ((toLines ls buf).reverse.flatten).length = (toLines ls buf).reverse.length * ls :=
    join_length_uniform ls _ hchunksrev
  have hlenflat : ((toLines ls buf).reverse.flatten).length = buf.length := by
    rw [hlen1, List.length_reverse]
    conv_rhs => rw [← join_toLines ls hls buf]
    rw [join_length_uniform ls _ hchunks]
  have hstep2 : flip bpp ((toLines ls buf).reverse.flatten) width = some buf := by
    unfold flip
    rw [if_neg (by omega)]
    simp only [← hlsdef]
    rw [if_neg (by omega), if_neg (by
      push_neg
      rw [hlen1]
      exact Nat.mul_mod_left _ _), if_neg (by
      rw [hlenflat]
      omega)]
    rw [toLines_of_chunks ls hls _ hchunksrev, List.reverse_reverse,
        join_toLines ls hls]
  rw [hstep1]
  exact hstep2

/-- Witness for the amended C4: a 2-pixel-wide, 8 bpp, 4-byte buffer. -/
theorem flip_involutive_witness :
    (8 % 8 = 0 ∧ 0 < 8 ∧ 0 < 2 ∧ 0 < ([1, 2, 3, 4] : List Nat).length ∧
      (2 * (8 / 8)) ∣ ([1, 2, 3, 4] : List Nat).length) ∧
    (flip 8 ([1, 2, 3, 4] : List Nat) 2).bind (fun b => flip 8 b 2) =
      some [1, 2, 3, 4] :=
  ⟨⟨by decide, by decide, by decide, by decide, by decide⟩,
   flip_involutive 8 2 [1, 2, 3, 4] (by decide) (by decide) (by decide) (by decide)
     (by decide)⟩

/-! ## DDS container synthesis (src/dds.h constants, src/gust_g1t.c
`write_dds_header`, lines 231-369) -/

def G1T_FLAG_TEXTURE_ARRAY : Nat := 0xF00F0000
def G1T_FLAG_CUBE_MAP : Nat := 0x100000000
def G1T_FLAG_SRGB : Nat := 0x2000
def G1T_FLAG_NORMAL_MAP : Nat := 0x030000000000

/-- The `GET_NB_FRAMES` macro of src/gust_g1t.c. -/
def GET_NB_FRAMES (v : Nat) : Nat := ((v >>> 28) &&& 0x0f) + ((v >>> 12) &&& 0xf0)

def DDS_HEADER_FLAGS_TEXTURE : Nat := 0x1007
def DDS_HEADER_FLAGS_MIPMAP : Nat := 0x20000
def DDS_HEADER_FLAGS_LINEARSIZE : Nat := 0x80000
def DDS_SURFACE_FLAGS_TEXTURE : Nat := 0x1000
def DDS_SURFACE_FLAGS_MIPMAP : Nat := 0x400008
def DDS_SURFACE_FLAGS_CUBEMAP : Nat := 0x8
def DDS_CUBEMAP_ALLFACES : Nat := 0xFE00
def DDS_RGB : Nat := 0x40
def DDS_RGBA : Nat := 0x41
def DDS_FOURCC : Nat := 0x04
def DDS_ALPHAPIXELS : Nat := 0x01
def DDS_NORMAL : Nat := 0x80000000

def DXGI_FORMAT_BC1_UNORM : Nat := 71
def DXGI_FORMAT_BC1_UNORM_SRGB : Nat := 72
def DXGI_FORMAT_BC2_UNORM : Nat := 74
def DXGI_FORMAT_BC2_UNORM_SRGB : Nat := 75
def DXGI_FORMAT_BC3_UNORM : Nat := 77
def DXGI_FORMAT_BC3_UNORM_SRGB : Nat := 78
def DXGI_FORMAT_B8G8R8A8_UNORM : Nat := 87
def DXGI_FORMAT_B8G8R8A8_UNORM_SRGB : Nat := 91
def DXGI_FORMAT_BC6H_UF16 : Nat := 95
def DXGI_FORMAT_BC6H_SF16 : Nat := 96
def DXGI_FORMAT_BC7_UNORM : Nat := 98
def DXGI_FORMAT_BC7_UNORM_SRGB : Nat := 99
def D3D10_RESOURCE_DIMENSION_TEXTURE2D : Nat := 3
def D3D11_RESOURCE_MISC_TEXTURECUBE : Nat := 4

/-- The `MAKEFOURCC` macro of src/dds.h (little-endian character pack). -/
def MAKEFOURCC (c0 c1 c2 c3 : Nat) : Nat :=
  c0 ||| (c1 <<< 8) ||| (c2 <<< 16) ||| (c3 <<< 24)

/-- The `get_fourCC` function of src/dds.h; character codes are given as
their ASCII values.  The default arm prints a warning and returns 0. -/
def get_fourCC (format : Nat) : Nat :=
  if format = DDS_FORMAT_DXT1 then MAKEFOURCC 68 88 84 49
  else if format = DDS_FORMAT_DXT2 then MAKEFOURCC 68 88 84 50
  else if format = DDS_FORMAT_DXT3 then MAKEFOURCC 68 88 84 51
  else if format = DDS_FORMAT_DXT4 then MAKEFOURCC 68 88 84 52
  else if format = DDS_FORMAT_DXT5 then MAKEFOURCC 68 88 84 53
  else if format = DDS_FORMAT_ATI1 ∨ format = DDS_FORMAT_BC4 then MAKEFOURCC 65 84 73 49
  else if format = DDS_FORMAT_ATI2 then MAKEFOURCC 65 84 73 50
  else if format = DDS_FORMAT_A2XY then MAKEFOURCC 65 50 88 89
  else if format = DDS_FORMAT_BC7 ∨ format = DDS_FORMAT_DX10 then MAKEFOURCC 68 88 49 48
  else if format = DDS_FORMAT_BC7L then MAKEFOURCC 66 67 55 76
  else if format = DDS_FORMAT_NVTT then MAKEFOURCC 78 86 84 84
  else if format = DDS_FORMAT_DDS then MAKEFOURCC 68 68 83 32
  else if format = DDS_FORMAT_RXGB8 then MAKEFOURCC 82 88 71 66
  else if format = DDS_FORMAT_UVER then MAKEFOURCC 85 86 69 82
  else if format = DDS_FORMAT_BC6H then MAKEFOURCC 66 67 54 72
  else 0

structure DDS_PIXELFORMAT where
  size : Nat
  flags : Nat
  fourCC : Nat
  RGBBitCount : Nat
  RBitMask : Nat
  GBitMask : Nat
  BBitMask : Nat
  ABitMask : Nat
deriving DecidableEq, Repr

structure DDS_HEADER where
  size : Nat
  flags : Nat
  height : Nat
  width : Nat
  pitchOrLinearSize : Nat
  mipMapCount : Nat
  ddspf : DDS_PIXELFORMAT
  caps : Nat
  caps2 : Nat
deriving DecidableEq, Repr

structure DDS_HEADER_DXT10 where
  dxgiFormat : Nat
  resourceDimension : Nat
  miscFlag : Nat
  arraySize : Nat
deriving DecidableEq, Repr

/-- The `use_dx10` condition of `write_dds_header` in src/gust_g1t.c. -/
def use_dx10_check (format flags1 : Nat) : Prop :=
  format = DDS_FORMAT_BC7 ∨ format = DDS_FORMAT_DX10 ∨
  flags1 &&& G1T_FLAG_TEXTURE_ARRAY ≠ 0

instance (format flags1 : Nat) : Decidable (use_dx10_check format flags1) := by
  unfold use_dx10_check; infer_instance

/-- The pixel-format block filled in by the big if/else chain of
`write_dds_header` (before the trailing normal-map flag OR).  `none` is
the `return 0` taken for an unsupported bits-per-pixel value.  Fields the
C leaves untouched keep their `{ 0 }` initialisation. -/
def base_ddspf (format bpp : Nat) (use_dx10 : Bool) : Option DDS_PIXELFORMAT :=
  if format = DDS_FORMAT_BGR8 then
    if bpp = 24 then
      some ⟨32, DDS_RGB, 0, bpp, 0x00ff0000, 0x0000ff00, 0x000000ff, 0⟩
    else none
  else if DDS_FORMAT_ABGR4 ≤ format ∧ format ≤ DDS_FORMAT_RGBA8 then
    let fl := if use_dx10 then DDS_FOURCC ||| DDS_ALPHAPIXELS else DDS_RGBA
    let fcc := if use_dx10 then get_fourCC DDS_FORMAT_DX10 else 0
    if bpp = 16 then
      some ⟨32, fl, fcc, bpp, 0x00000f00, 0x000000f0, 0x0000000f, 0x0000f000⟩
    else if bpp = 32 then
      some ⟨32, fl, fcc, bpp, 0x00ff0000, 0x0000ff00, 0x000000ff, 0xff000000⟩
    else if bpp = 64 then
      some ⟨32, fl, fcc, bpp, 0x0000ffff, 0xffff0000, 0x0000ffff, 0xffff0000⟩
    else if bpp = 128 then
      some ⟨32, fl, fcc, bpp, 0xffffffff, 0xffffffff, 0xffffffff, 0xffffffff⟩
    else none
  else if format = DDS_FORMAT_R8 then
    some ⟨32, DDS_RGBA, 0, bpp, ((1 <<< bpp) - 1) % 2 ^ 32, 0, 0, 0⟩
  else if format = DDS_FORMAT_ARGB32 then
    some ⟨32, DDS_FOURCC, 0x74, 0, 0, 0, 0, 0⟩
  else if format = DDS_FORMAT_ARGB16 then
    some ⟨32, DDS_FOURCC, 0x71, 0, 0, 0, 0, 0⟩
  else
    some ⟨32, DDS_FOURCC,
      get_fourCC (if use_dx10 then DDS_FORMAT_DX10 else format), 0, 0, 0, 0, 0⟩

/-- The DXGI format switch of the DX10 branch of `write_dds_header`; the
`default` arm is `assert(false)`, modelled as `none`. -/
def dx10_dxgi (format flags0 : Nat) : Option Nat :=
  let srgb := flags0 &&& G1T_FLAG_SRGB ≠ 0
  if format = DDS_FORMAT_BC7 then
    some (if srgb then DXGI_FORMAT_BC7_UNORM_SRGB else DXGI_FORMAT_BC7_UNORM)
  else if format = DDS_FORMAT_DXT1 then
    some (if srgb then DXGI_FORMAT_BC1_UNORM_SRGB else DXGI_FORMAT_BC1_UNORM)
  else if format = DDS_FORMAT_DXT3 then
    some (if srgb then DXGI_FORMAT_BC2_UNORM_SRGB else DXGI_FORMAT_BC2_UNORM)
  else if format = DDS_FORMAT_DXT5 then
    some (if srgb then DXGI_FORMAT_BC3_UNORM_SRGB else DXGI_FORMAT_BC3_UNORM)
  else if format = DDS_FORMAT_DX10 then
    some (if srgb then DXGI_FORMAT_BC7_UNORM_SRGB else DXGI_FORMAT_BC7_UNORM)
  else if format = DDS_FORMAT_BC6H then
    some (if srgb then DXGI_FORMAT_BC6H_SF16 else DXGI_FORMAT_BC6H_UF16)
  else if format = DDS_FORMAT_RGBA8 then
    some (if srgb then DXGI_FORMAT_B8G8R8A8_UNORM_SRGB else DXGI_FORMAT_B8G8R8A8_UNORM)
  else none

/-- The `write_dds_header` function of src/gust_g1t.c without the file
descriptor: it returns the header record and the optional DX10 extension
record instead of writing them.  `none` models the `return 0` error paths
(zero width or height, unsupported bits-per-pixel) and the asserts
reachable through `dds_bpp`, `dds_bpb` and the DXGI switch. -/
def write_dds_header (format width height mipmaps flags0 flags1 : Nat) :
    Option (DDS_HEADER × Option DDS_HEADER_DXT10) :=
  if width = 0 ∨ height = 0 then none
  else match dds_bpp format, dds_bpb format with
  | some bpp, some bpb =>
    (match base_ddspf format bpp (decide (use_dx10_check format flags1)) with
     | none => none
     | some pf0 =>
       let pf := if flags0 &&& G1T_FLAG_NORMAL_MAP ≠ 0 then
           ⟨pf0.size, pf0.flags ||| DDS_NORMAL, pf0.fourCC, pf0.RGBBitCount,
            pf0.RBitMask, pf0.GBitMask, pf0.BBitMask, pf0.ABitMask⟩
         else pf0
       let pitch := if 8 ≤ bpb then ((width + 3) / 4) * ((height + 3) / 4) * bpb
         else width * height * bpb
       let hflags := DDS_HEADER_FLAGS_TEXTURE ||| DDS_HEADER_FLAGS_LINEARSIZE
       let hflags := if mipmaps ≠ 0 then hflags ||| DDS_HEADER_FLAGS_MIPMAP else hflags
       let mmc := if mipmaps ≠ 0 then mipmaps else 0
       let caps := DDS_SURFACE_FLAGS_TEXTURE
       let caps := if mipmaps ≠ 0 then caps ||| DDS_SURFACE_FLAGS_MIPMAP else caps
       let caps := if flags1 &&& G1T_FLAG_CUBE_MAP ≠ 0 then
           caps ||| DDS_SURFACE_FLAGS_CUBEMAP else caps
       let caps2 := if flags1 &&& G1T_FLAG_CUBE_MAP ≠ 0 then DDS_CUBEMAP_ALLFACES else 0
       let hdr : DDS_HEADER := ⟨124, hflags, height, width, pitch, mmc, pf, caps, caps2⟩
       if use_dx10_check format flags1 then
         match dx10_dxgi format flags0 with
         | none => none
         | some dxgi =>
           let asize0 := GET_NB_FRAMES flags1
           let asize := if asize0 = 0 then 1 else asize0
           some (hdr, some ⟨dxgi, D3D10_RESOURCE_DIMENSION_TEXTURE2D,
             (if flags1 &&& G1T_FLAG_CUBE_MAP ≠ 0 then D3D11_RESOURCE_MISC_TEXTURECUBE else 0),
             asize⟩)
       else some (hdr, none))
  | _, _ => none

theorem if_eq_max (n : Nat) : (if n = 0 then 1 else n) = max 1 n := by
  split <;> omega

/-! ## Claim C6 -/

/-- Claim C6: every DDS header synthesized by `write_dds_header` has the
flag bits `DDSD_CAPS|DDSD_HEIGHT|DDSD_WIDTH|DDSD_PIXELFORMAT` (0x1007)
set, has `DDSD_LINEARSIZE` set (the pitch field is always filled with a
linear size), and has `DDSD_MIPMAPCOUNT` together with the
`DDSCAPS_COMPLEX|DDSCAPS_MIPMAP` capability bits exactly when the mipmap
count is nonzero; the DX10 extension record (resource dimension = 2-D
texture, array size = number of frames or 1, cubemap misc-flag bit) is
appended exactly for `use_dx10` - BC7, the DX10 container format, or any
texture array - and therefore only for block-compressed formats beyond
DXT1/3/5 or texture arrays. -/
theorem write_dds_header_spec :
    ∀ format width height mipmaps flags0 flags1 hdr dx10o,
      write_dds_header format width height mipmaps flags0 flags1 = some (hdr, dx10o) →
      hdr.flags &&& DDS_HEADER_FLAGS_TEXTURE = DDS_HEADER_FLAGS_TEXTURE ∧
      hdr.flags &&& DDS_HEADER_FLAGS_LINEARSIZE = DDS_HEADER_FLAGS_LINEARSIZE ∧
      (mipmaps ≠ 0 →
        hdr.flags &&& DDS_HEADER_FLAGS_MIPMAP = DDS_HEADER_FLAGS_MIPMAP ∧
        hdr.caps &&& DDS_SURFACE_FLAGS_MIPMAP = DDS_SURFACE_FLAGS_MIPMAP ∧
        hdr.mipMapCount = mipmaps) ∧
      (mipmaps = 0 →
        hdr.flags &&& DDS_HEADER_FLAGS_MIPMAP = 0 ∧
        hdr.caps &&& 0x400000 = 0 ∧ hdr.mipMapCount = 0) ∧
      (dx10o.isSome ↔ use_dx10_check format flags1) ∧
      (dx10o.isSome →
        (dds_bwh format = 4 ∧
         format ∉ [DDS_FORMAT_DXT1, DDS_FORMAT_DXT2, DDS_FORMAT_DXT3,
                   DDS_FORMAT_DXT4, DDS_FORMAT_DXT5]) ∨
        flags1 &&& G1T_FLAG_TEXTURE_ARRAY ≠ 0) ∧
      (∀ d, dx10o = some d →
        d.resourceDimension = D3D10_RESOURCE_DIMENSION_TEXTURE2D ∧
        d.arraySize = max 1 (GET_NB_FRAMES flags1) ∧
        d.miscFlag = if flags1 &&& G1T_FLAG_CUBE_MAP ≠ 0 then
          D3D11_RESOURCE_MISC_TEXTURECUBE else 0) := by
  intro format width height mipmaps flags0 flags1 hdr dx10o h
  simp only [write_dds_header] at h
  split at h
  · exact absurd h (by simp)
  split at h
  case _ bpp bpb =>
    split at h
    · exact absurd h (by simp)
    case _ pf0 hpf =>
      split at h
      case isTrue hdx =>
        split at h
        · exact absurd h (by simp)
        case _ dxgi hdxgi =>
          simp only [Option.some.injEq, Prod.mk.injEq] at h
          obtain ⟨hhdr, hdxo⟩ := h
          subst hhdr
          subst hdxo
          dsimp only
          refine ⟨?_, ?_, ?_, ?_, ?_, ?_, ?_⟩
          · split_ifs <;> first | rfl | decide | contradiction | omega
          · split_ifs <;> first | rfl | decide | contradiction | omega
          · intro hm
            refine ⟨?_, ?_, ?_⟩ <;>
              split_ifs <;> first | rfl | decide | contradiction | omega
          · intro hm
            refine ⟨?_, ?_, ?_⟩ <;>
              split_ifs <;> first | rfl | decide | contradiction | omega
          · exact ⟨fun _ => hdx, fun _ => rfl⟩
          · intro _
            rcases hdx with rfl | rfl | hdx
            · exact Or.inl ⟨by decide, by decide⟩
            · exact Or.inl ⟨by decide, by decide⟩
            · exact Or.inr hdx
          · intro d hd
            simp only [Option.some.injEq] at hd
            subst hd
            refine ⟨rfl, ?_, ?_⟩ <;> dsimp only <;>
              split_ifs <;> first | rfl | decide | contradiction | omega
      case isFalse hdx =>
        simp only [Option.some.injEq, Prod.mk.injEq] at h
        obtain ⟨hhdr, hdxo⟩ := h
        subst hhdr
        subst hdxo
        dsimp only
        refine ⟨?_, ?_, ?_, ?_, ?_, ?_, ?_⟩
        · split_ifs <;> first | rfl | decide | contradiction | omega
        · split_ifs <;> first | rfl | decide | contradiction | omega
        · intro hm
          refine ⟨?_, ?_, ?_⟩ <;>
            split_ifs <;> first | rfl | decide | contradiction | omega
        · intro hm
          refine ⟨?_, ?_, ?_⟩ <;>
            split_ifs <;> first | rfl | decide | contradiction | omega
        · exact ⟨fun hs => absurd hs (by simp), fun hd => absurd hd hdx⟩
        · intro hs
          exact absurd hs (by simp)
        · intro d hd
          exact absurd hd (by simp)
  · exact absurd h (by simp)

/-- Witness for C6 at concrete inputs: a 16x16 BC7 texture with 3 mipmaps
and no special flags (DX10 path), whose header and DX10 record are checked
against the claimed bits. -/
theorem write_dds_header_spec_witness :
    ∃ hdr dx10o,
      write_dds_header DDS_FORMAT_BC7 16 16 3 0 0 = some (hdr, dx10o) ∧
      (hdr.flags &&& DDS_HEADER_FLAGS_TEXTURE = DDS_HEADER_FLAGS_TEXTURE ∧
       hdr.flags &&& DDS_HEADER_FLAGS_LINEARSIZE = DDS_HEADER_FLAGS_LINEARSIZE ∧
       (dx10o.isSome ↔ use_dx10_check DDS_FORMAT_BC7 0)) := by
  have h : write_dds_header DDS_FORMAT_BC7 16 16 3 0 0 =
      some (⟨124, 0xA1007, 16, 16, 256, 3,
             ⟨32, DDS_FOURCC, MAKEFOURCC 68 88 49 48, 0, 0, 0, 0, 0⟩,
             0x401008, 0⟩,
            some ⟨DXGI_FORMAT_BC7_UNORM, 3, 0, 1⟩) := by decide
  have hs := write_dds_header_spec DDS_FORMAT_BC7 16 16 3 0 0 _ _ h
  exact ⟨_, _, h, hs.1, hs.2.1, hs.2.2.2.2.1⟩

/-! ## Channel permutation (src/gust_g1t.c `rgba_convert`, lines 371-407)

The byte accessors `getbe16/24/32` and `setbe16/24/32` live in util.h,
which is not under src/; per their names and the byte-exact contract of
the spec they are modelled as big-endian loads and stores (the `setbe`
stores truncate to the named width, as the C casts do). -/

/-- Modelled from the spec: big-endian 16-bit load (`getbe16` of util.h,
absent from src/). -/
def getbe16 (b0 b1 : Nat) : Nat := b0 * 256 + b1

/-- Modelled from the spec: big-endian 24-bit load (`getbe24` of util.h,
absent from src/). -/
def getbe24 (b0 b1 b2 : Nat) : Nat := b0 * 65536 + b1 * 256 + b2

/-- Modelled from the spec: big-endian 32-bit load (`getbe32` of util.h,
absent from src/). -/
def getbe32 (b0 b1 b2 b3 : Nat) : Nat :=
  b0 * 16777216 + b1 * 65536 + b2 * 256 + b3

/-- Modelled from the spec: big-endian 16-bit store (`setbe16` of util.h,
absent from src/); the value is truncated to `uint16_t` first. -/
def setbe16 (v : Nat) : List Nat := [v % 65536 / 256, v % 256]

/-- Modelled from the spec: big-endian 24-bit store (`setbe24` of util.h,
absent from src/); only the low 24 bits are stored. -/
def setbe24 (v : Nat) : List Nat := [v % 16777216 / 65536, v % 65536 / 256, v % 256]

/-- Modelled from the spec: big-endian 32-bit store (`setbe32` of util.h,
absent from src/); only the low 32 bits are stored. -/
def setbe32 (v : Nat) : List Nat :=
  [v % 4294967296 / 16777216, v % 16777216 / 65536, v % 65536 / 256, v % 256]

/-- The four channel letters of the `rgba` array of `rgba_convert`. -/
inductive RGBAChan where
  | R
  | G
  | B
  | A
deriving DecidableEq, Repr

/-- The list `[R, G, B, A]` over which the mask/rotation loop of
`rgba_convert` iterates. -/
def rgba_chans : List RGBAChan := [RGBAChan.R, RGBAChan.G, RGBAChan.B, RGBAChan.A]

/-- `strchr(order, c) - order`: the index of channel `c` in a 4-character
order string.  (For an invalid order missing `c` the C dereferences a NULL
pointer; validity is a hypothesis of every theorem below.) -/
def chanIndex (o : List RGBAChan) (c : RGBAChan) : Nat := o.indexOf c

/-- `pos_in`/`pos_out` of `rgba_convert`: `3 - (strchr(order, c) - order)`. -/
def chanPos (o : List RGBAChan) (c : RGBAChan) : Nat := 3 - chanIndex o c

/-- A valid 4-character channel order: each of R, G, B, A appears (hence,
the length being 4, exactly once). -/
def validOrder (o : List RGBAChan) : Prop :=
  o.length = 4 ∧ RGBAChan.R ∈ o ∧ RGBAChan.G ∈ o ∧ RGBAChan.B ∈ o ∧ RGBAChan.A ∈ o

instance (o : List RGBAChan) : Decidable (validOrder o) := by
  unfold validOrder
  infer_instance

theorem validOrder_mem {o : List RGBAChan} (h : validOrder o) :
    ∀ c : RGBAChan, c ∈ o := by
  intro c
  cases c
  · exact h.2.1
  · exact h.2.2.1
  · exact h.2.2.2.1
  · exact h.2.2.2.2

/-- One lane of the conversion: `(s & mask[i]) << rot[i]` for a positive
rotation, `(s & mask[i]) >> -rot[i]` otherwise, with
`rot[i] = (pos_out - pos_in) * 8` and
`mask[i] = ((1 << bits_per_pixel / 4) - 1) << (pos_in * 8)`. -/
def chanTerm (bpp : Nat) (inO outO : List RGBAChan) (s : Nat) (c : RGBAChan) : Nat :=
  let pin := chanPos inO c
  let pout := chanPos outO c
  let m := ((1 <<< (bpp / 4)) - 1) <<< (pin * 8)
  if pin ≤ pout then (s &&& m) <<< ((pout - pin) * 8)
  else (s &&& m) >>> ((pin - pout) * 8)

/-- The per-pixel-group body of the conversion loop of `rgba_convert`:
masks each lane at its `pos_in` byte position, rotates it to its `pos_out`
byte position (left if the destination is more significant, right
otherwise) and ORs the lanes together. -/
def convertPixel (bpp : Nat) (inO outO : List RGBAChan) (s : Nat) : Nat :=
  rgba_chans.foldl (fun d c => d ||| chanTerm bpp inO outO s c) 0

/-- The conversion loop of `rgba_convert`: the loop index advances by 4
BYTES per iteration regardless of `bits_per_pixel`, loading and storing a
16-, 24- or 32-bit big-endian group at that position (so for 16 bpp the
trailing 2 bytes of each 4-byte step are left untouched).  A trailing
partial group (fewer than 4 bytes) would be read out of bounds by the C;
it is left unchanged here and excluded by the size hypotheses of the
theorems. -/
def convert_groups (bpp : Nat) (inO outO : List RGBAChan) : List Nat → List Nat
  | b0 :: b1 :: b2 :: b3 :: rest =>
    (if bpp = 16 then
      setbe16 (convertPixel bpp inO outO (getbe16 b0 b1)) ++ [b2, b3]
    else if bpp = 24 then
      setbe24 (convertPixel bpp inO outO (getbe24 b0 b1 b2)) ++ [b3]
    else
      setbe32 (convertPixel bpp inO outO (getbe32 b0 b1 b2 b3)))
    ++ convert_groups bpp inO outO rest
  | rest => rest

/-- The `rgba_convert` function of src/gust_g1t.c.  Its two asserts
(`bits_per_pixel % 8 == 0` and the format being one of the uncompressed
RGBA formats) are modelled as `none`, as is an unsupported format in
`dds_bpp`; the `strcmp(in, out) == 0` fast path returns the buffer
unchanged. -/
def rgba_convert (format : Nat) (inO outO : List RGBAChan) (buf : List Nat) :
    Option (List Nat) :=
  match dds_bpp format with
  | none => none
  | some bpp =>
    if bpp % 8 ≠ 0 then none
    else if ¬ (DDS_FORMAT_ABGR4 ≤ format ∧ format ≤ DDS_FORMAT_RGBA8) then none
    else if inO = outO then some buf
    else some (convert_groups bpp inO outO buf)

/-- The order string ARGB. -/
def ordARGB : List RGBAChan := [RGBAChan.A, RGBAChan.R, RGBAChan.G, RGBAChan.B]

/-- The order string RGBA. -/
def ordRGBA : List RGBAChan := [RGBAChan.R, RGBAChan.G, RGBAChan.B, RGBAChan.A]

/-! ### Bit-level facts about the 32 bpp conversion -/

theorem testBit_false_of_ge {x : Nat} (n i : Nat) (hx : x < 2 ^ n) (h : n ≤ i) :
    x.testBit i = false :=
  Nat.testBit_eq_false_of_lt (lt_of_lt_of_le hx (Nat.pow_le_pow_right (by norm_num) h))

theorem chanPos_lt {o : List RGBAChan} (h : validOrder o) (c : RGBAChan) :
    chanPos o c < 4 := by
  unfold chanPos
  omega

theorem chanIndex_lt {o : List RGBAChan} (h : validOrder o) (c : RGBAChan) :
    chanIndex o c < 4 := by
  have h1 := List.indexOf_lt_length.2 (validOrder_mem h c)
  have h2 : o.length = 4 := h.1
  unfold chanIndex
  omega

theorem chanPos_inj {o : List RGBAChan} (h : validOrder o) {c d : RGBAChan}
    (e : chanPos o c = chanPos o d) : c = d := by
  have hc := chanIndex_lt h c
  have hd := chanIndex_lt h d
  have : chanIndex o c = chanIndex o d := by
    unfold chanPos at e
    omega
  exact (List.indexOf_inj (validOrder_mem h c) (validOrder_mem h d)).1 this

theorem chanPos_surj {o : List RGBAChan} (h : validOrder o) (t : Nat) (ht : t < 4) :
    ∃ c, chanPos o c = t := by
  by_contra hno
  push_neg at hno
  have h1 := chanPos_lt h RGBAChan.R
  have h2 := chanPos_lt h RGBAChan.G
  have h3 := chanPos_lt h RGBAChan.B
  have h4 := chanPos_lt h RGBAChan.A
  have n1 : chanPos o RGBAChan.R ≠ chanPos o RGBAChan.G :=
    fun e => by cases chanPos_inj h e
  have n2 : chanPos o RGBAChan.R ≠ chanPos o RGBAChan.B :=
    fun e => by cases chanPos_inj h e
  have n3 : chanPos o RGBAChan.R ≠ chanPos o RGBAChan.A :=
    fun e => by cases chanPos_inj h e
  have n4 : chanPos o RGBAChan.G ≠ chanPos o RGBAChan.B :=
    fun e => by cases chanPos_inj h e
  have n5 : chanPos o RGBAChan.G ≠ chanPos o RGBAChan.A :=
    fun e => by cases chanPos_inj h e
  have n6 : chanPos o RGBAChan.B ≠ chanPos o RGBAChan.A :=
    fun e => by cases chanPos_inj h e
  have m1 := hno RGBAChan.R
  have m2 := hno RGBAChan.G
  have m3 := hno RGBAChan.B
  have m4 := hno RGBAChan.A
  omega

/-- Bit `t` of one 32 bpp lane: set exactly when `t` falls in the
destination byte window of the lane and the corresponding source bit of
`s` is set. -/
theorem chanTerm_testBit (inO outO : List RGBAChan) (s : Nat) (c : RGBAChan) (t : Nat) :
    (chanTerm 32 inO outO s c).testBit t =
      (decide (chanPos outO c * 8 ≤ t ∧ t < chanPos outO c * 8 + 8) &&
       s.testBit (t - chanPos outO c * 8 + chanPos inO c * 8)) := by
  unfold chanTerm
  have hm : ((1 <<< (32 / 4 : Nat)) - 1) = 2 ^ 8 - 1 := by decide
  rw [hm]
  set pin := chanPos inO c with hpin
  set pout := chanPos outO c with hpout
  by_cases hle : pin ≤ pout
  · rw [if_pos hle]
    rw [Nat.testBit_shiftLeft, Nat.testBit_land, Nat.testBit_shiftLeft,
        Nat.testBit_two_pow_sub_one]
    rcases Decidable.em (pout * 8 ≤ t ∧ t < pout * 8 + 8) with hw | hw
    · have e1 : (decide (t ≥ (pout - pin) * 8)) = true := by
        simp only [decide_eq_true_eq, ge_iff_le]
        omega
      have e2 : (decide (t - (pout - pin) * 8 ≥ pin * 8)) = true := by
        simp only [decide_eq_true_eq, ge_iff_le]
        omega
      have e3 : (decide (t - (pout - pin) * 8 - pin * 8 < 8)) = true := by
        simp only [decide_eq_true_eq]
        omega
      have e4 : t - (pout - pin) * 8 = t - pout * 8 + pin * 8 := by omega
      have e5 : (decide (pout * 8 ≤ t ∧ t < pout * 8 + 8)) = true := by
        simp only [decide_eq_true_eq]
        exact hw
      rw [e1, e2, e3, e4, e5]
      simp
    · have e5 : (decide (pout * 8 ≤ t ∧ t < pout * 8 + 8)) = false := by
        simp only [decide_eq_false_iff_not]
        exact hw
      rw [e5, Bool.false_and]
      rcases Decidable.em (t ≥ (pout - pin) * 8) with h1 | h1
      · have e3 : (decide (t - (pout - pin) * 8 - pin * 8 < 8)) = false ∨
            (decide (t - (pout - pin) * 8 ≥ pin * 8)) = false := by
          rcases Decidable.em (t - (pout - pin) * 8 ≥ pin * 8) with h2 | h2
          · left
            simp only [decide_eq_false_iff_not]
            omega
          · right
            simp only [decide_eq_false_iff_not]
            exact h2
        rcases e3 with e3 | e3 <;> rw [e3] <;> simp
      · have e1 : (decide (t ≥ (pout - pin) * 8)) = false := by
          simp only [decide_eq_false_iff_not]
          exact h1
        rw [e1, Bool.false_and]
  · rw [if_neg hle]
    rw [Nat.testBit_shiftRight, Nat.testBit_land, Nat.testBit_shiftLeft,
        Nat.testBit_two_pow_sub_one]
    rcases Decidable.em (pout * 8 ≤ t ∧ t < pout * 8 + 8) with hw | hw
    · have e2 : (decide ((pin - pout) * 8 + t ≥ pin * 8)) = true := by
        simp only [decide_eq_true_eq, ge_iff_le]
        omega
      have e3 : (decide ((pin - pout) * 8 + t - pin * 8 < 8)) = true := by
        simp only [decide_eq_true_eq]
        omega
      have e4 : (pin - pout) * 8 + t = t - pout * 8 + pin * 8 := by omega
      have e5 : (decide (pout * 8 ≤ t ∧ t < pout * 8 + 8)) = true := by
        simp only [decide_eq_true_eq]
        exact hw
      rw [e2, e3, e5, e4]
      simp
    · have e5 : (decide (pout * 8 ≤ t ∧ t < pout * 8 + 8)) = false := by
        simp only [decide_eq_false_iff_not]
        exact hw
      rw [e5, Bool.false_and]
      have e3 : (decide ((pin - pout) * 8 + t - pin * 8 < 8)) = false ∨
          (decide ((pin - pout) * 8 + t ≥ pin * 8)) = false := by
        rcases Decidable.em ((pin - pout) * 8 + t ≥ pin * 8) with h2 | h2
        · left
          simp only [decide_eq_false_iff_not]
          omega
        · right
          simp only [decide_eq_false_iff_not]
          exact h2
      rcases e3 with e3 | e3 <;> rw [e3] <;> simp

theorem convertPixel_eq_or (bpp : Nat) (inO outO : List RGBAChan) (s : Nat) :
    convertPixel bpp inO outO s =
      (((0 ||| chanTerm bpp inO outO s RGBAChan.R) |||
        chanTerm bpp inO outO s RGBAChan.G) |||
        chanTerm bpp inO outO s RGBAChan.B) |||
        chanTerm bpp inO outO s RGBAChan.A := rfl

/-- Bit `t < 32` of the converted 32 bpp pixel group: locate the unique
lane whose destination window contains `t`; the bit comes from that
lane's source byte. -/
theorem convertPixel32_testBit {inO outO : List RGBAChan}
    (hin : validOrder inO) (hout : validOrder outO) (s t : Nat) (c : RGBAChan)
    (hc : chanPos outO c = t / 8) (ht : t < 32) :
    (convertPixel 32 inO outO s).testBit t =
      s.testBit (t % 8 + chanPos inO c * 8) := by
  rw [convertPixel_eq_or]
  simp only [Nat.testBit_lor, Nat.zero_testBit]
  rw [chanTerm_testBit, chanTerm_testBit, chanTerm_testBit, chanTerm_testBit]
  have key : ∀ d : RGBAChan,
      (decide (chanPos outO d * 8 ≤ t ∧ t < chanPos outO d * 8 + 8) &&
       s.testBit (t - chanPos outO d * 8 + chanPos inO d * 8)) =
      (if d = c then s.testBit (t % 8 + chanPos inO c * 8) else false) := by
    intro d
    by_cases hd : d = c
    · subst hd
      have hw : chanPos outO d * 8 ≤ t ∧ t < chanPos outO d * 8 + 8 := by
        rw [hc]
        omega
      have e : t - chanPos outO d * 8 + chanPos inO d * 8 =
          t % 8 + chanPos inO d * 8 := by
        rw [hc]
        omega
      rw [if_pos rfl, e]
      simp [hw]
    · have hne : chanPos outO d ≠ t / 8 := fun e => hd (chanPos_inj hout (e.trans hc.symm))
      have hw : ¬ (chanPos outO d * 8 ≤ t ∧ t < chanPos outO d * 8 + 8) := by
        intro hcon
        exact hne (by omega)
      rw [if_neg hd]
      simp [hw]
  rw [key RGBAChan.R, key RGBAChan.G, key RGBAChan.B, key RGBAChan.A]
  cases c <;> simp

/-- The 32 bpp converted group fits in 32 bits. -/
theorem convertPixel32_lt {inO outO : List RGBAChan}
    (hin : validOrder inO) (hout : validOrder outO) (s : Nat) :
    convertPixel 32 inO outO s < 2 ^ 32 := by
  apply Nat.lt_pow_two_of_testBit
  intro i hi
  rw [convertPixel_eq_or]
  simp only [Nat.testBit_lor]
  rw [chanTerm_testBit, chanTerm_testBit, chanTerm_testBit, chanTerm_testBit]
  have key : ∀ d : RGBAChan,
      (decide (chanPos outO d * 8 ≤ i ∧ i < chanPos outO d * 8 + 8)) = false := by
    intro d
    have := chanPos_lt hout d
    simp only [decide_eq_false_iff_not]
    omega
  rw [key RGBAChan.R, key RGBAChan.G, key RGBAChan.B, key RGBAChan.A]
  simp

/-- Converting a 32 bpp group from order `inO` to `outO` and back restores
the group. -/
theorem convertPixel32_roundtrip {inO outO : List RGBAChan}
    (hin : validOrder inO) (hout : validOrder outO) (s : Nat) (hs : s < 2 ^ 32) :
    convertPixel 32 outO inO (convertPixel 32 inO outO s) = s := by
  apply Nat.eq_of_testBit_eq
  intro t
  rcases Nat.lt_or_ge t 32 with ht | ht
  · obtain ⟨c, hc⟩ := chanPos_surj hin (t / 8) (by omega)
    rw [convertPixel32_testBit hout hin _ t c hc ht]
    have hu : t % 8 + chanPos outO c * 8 < 32 := by
      have := chanPos_lt hout c
      omega
    have hcu : chanPos outO c = (t % 8 + chanPos outO c * 8) / 8 := by omega
    rw [convertPixel32_testBit hin hout s _ c hcu hu]
    congr 1
    omega
  · rw [testBit_false_of_ge 32 t (convertPixel32_lt hout hin _) ht,
        testBit_false_of_ge 32 t hs ht]

theorem getbe32_lt (b0 b1 b2 b3 : Nat) (h0 : b0 < 256) (h1 : b1 < 256)
    (h2 : b2 < 256) (h3 : b3 < 256) : getbe32 b0 b1 b2 b3 < 2 ^ 32 := by
  unfold getbe32
  omega

theorem setbe32_getbe32 (b0 b1 b2 b3 : Nat) (h0 : b0 < 256) (h1 : b1 < 256)
    (h2 : b2 < 256) (h3 : b3 < 256) :
    setbe32 (getbe32 b0 b1 b2 b3) = [b0, b1, b2, b3] := by
  unfold setbe32 getbe32
  simp only [List.cons.injEq, and_true]
  refine ⟨?_, ?_, ?_, ?_⟩ <;> omega

theorem getbe32_setbe32 (v : Nat) (hv : v < 2 ^ 32) :
    getbe32 (v % 4294967296 / 16777216) (v % 16777216 / 65536)
      (v % 65536 / 256) (v % 256) = v := by
  unfold getbe32
  omega

/-- The 4-byte-group round trip for the 32 bpp conversion. -/
theorem convert_group32_roundtrip {inO outO : List RGBAChan}
    (hin : validOrder inO) (hout : validOrder outO) (b0 b1 b2 b3 : Nat)
    (h0 : b0 < 256) (h1 : b1 < 256) (h2 : b2 < 256) (h3 : b3 < 256) :
    setbe32 (convertPixel 32 outO inO
      (getbe32 (setbe32 (convertPixel 32 inO outO (getbe32 b0 b1 b2 b3))).head!
        ((setbe32 (convertPixel 32 inO outO (getbe32 b0 b1 b2 b3))).drop 1).head!
        (((setbe32 (convertPixel 32 inO outO (getbe32 b0 b1 b2 b3))).drop 2).head!)
        (((setbe32 (convertPixel 32 inO outO (getbe32 b0 b1 b2 b3))).drop 3).head!))) =
    [b0, b1, b2, b3] := by
  set s := getbe32 b0 b1 b2 b3 with hs
  set d := convertPixel 32 inO outO s with hd
  have hdlt : d < 2 ^ 32 := convertPixel32_lt hin hout s
  have hre : getbe32 (setbe32 d).head! (((setbe32 d).drop 1).head!)
      (((setbe32 d).drop 2).head!) (((setbe32 d).drop 3).head!) = d := by
    show getbe32 (d % 4294967296 / 16777216) (d % 16777216 / 65536)
      (d % 65536 / 256) (d % 256) = d
    exact getbe32_setbe32 d hdlt
  rw [hre, convertPixel32_roundtrip hin hout s (getbe32_lt b0 b1 b2 b3 h0 h1 h2 h3)]
  exact setbe32_getbe32 b0 b1 b2 b3 h0 h1 h2 h3

/-- List-level round trip of the 32 bpp conversion loop. -/
theorem convert_groups32_roundtrip {inO outO : List RGBAChan}
    (hin : validOrder inO) (hout : validOrder outO) :
    ∀ l : List Nat, l.length % 4 = 0 → (∀ b ∈ l, b < 256) →
      convert_groups 32 outO inO (convert_groups 32 inO outO l) = l
  | [], _, _ => by simp [convert_groups]
  | [b0], h4, _ => by simp at h4
  | [b0, b1], h4, _ => by simp at h4
  | [b0, b1, b2], h4, _ => by simp at h4
  | b0 :: b1 :: b2 :: b3 :: rest, h4, hb => by
    have hrest : rest.length % 4 = 0 := by
      simp only [List.length_cons] at h4
      omega
    have hbrest : ∀ b ∈ rest, b < 256 := fun b hbm =>
      hb b (by simp [hbm])
    have h0 : b0 < 256 := hb b0 (by simp)
    have h1 : b1 < 256 := hb b1 (by simp)
    have h2 : b2 < 256 := hb b2 (by simp)
    have h3 : b3 < 256 := hb b3 (by simp)
    have ih := convert_groups32_roundtrip hin hout rest hrest hbrest
    show convert_groups 32 outO inO
        ((if (32 : Nat) = 16 then
            setbe16 (convertPixel 32 inO outO (getbe16 b0 b1)) ++ [b2, b3]
          else if (32 : Nat) = 24 then
            setbe24 (convertPixel 32 inO outO (getbe24 b0 b1 b2)) ++ [b3]
          else setbe32 (convertPixel 32 inO outO (getbe32 b0 b1 b2 b3)))
          ++ convert_groups 32 inO outO rest) = b0 :: b1 :: b2 :: b3 :: rest
    rw [if_neg (by norm_num), if_neg (by norm_num)]
    show convert_groups 32 outO inO
        (convertPixel 32 inO outO (getbe32 b0 b1 b2 b3) % 4294967296 / 16777216 ::
         convertPixel 32 inO outO (getbe32 b0 b1 b2 b3) % 16777216 / 65536 ::
         convertPixel 32 inO outO (getbe32 b0 b1 b2 b3) % 65536 / 256 ::
         convertPixel 32 inO outO (getbe32 b0 b1 b2 b3) % 256 ::
         convert_groups 32 inO outO rest) = b0 :: b1 :: b2 :: b3 :: rest
    set d := convertPixel 32 inO outO (getbe32 b0 b1 b2 b3) with hd
    show (if (32 : Nat) = 16 then
            setbe16 (convertPixel 32 outO inO (getbe16 (d % 4294967296 / 16777216)
              (d % 16777216 / 65536))) ++ [d % 65536 / 256, d % 256]
          else if (32 : Nat) = 24 then
            setbe24 (convertPixel 32 outO inO (getbe24 (d % 4294967296 / 16777216)
              (d % 16777216 / 65536) (d % 65536 / 256))) ++ [d % 256]
          else setbe32 (convertPixel 32 outO inO (getbe32 (d % 4294967296 / 16777216)
              (d % 16777216 / 65536) (d % 65536 / 256) (d % 256))))
          ++ convert_groups 32 outO inO (convert_groups 32 inO outO rest) =
        b0 :: b1 :: b2 :: b3 :: rest
    rw [if_neg (by norm_num), if_neg (by norm_num), ih]
    have hdlt : d < 2 ^ 32 := convertPixel32_lt hin hout _
    have hre : getbe32 (d % 4294967296 / 16777216) (d % 16777216 / 65536)
        (d % 65536 / 256) (d % 256) = d := getbe32_setbe32 d hdlt
    rw [hre, hd, convertPixel32_roundtrip hin hout _ (getbe32_lt b0 b1 b2 b3 h0 h1 h2 h3)]
    rw [setbe32_getbe32 b0 b1 b2 b3 h0 h1 h2 h3]
    rfl

/-! ## Claim C3 -/

/-- Claim C3 counterexample: for the 16 bpp format ARGB4 and the valid
orders ARGB and RGBA, converting the 4-byte buffer `[0xAB, 0xCD, 0, 0]`
from ARGB to RGBA and back yields `[0x00, 0x0D, 0, 0]`, not the original:
the lane masks of `rgba_convert` sit at BYTE positions
(`pos * 8`) even though a 16 bpp pixel holds its four 4-bit lanes within
two bytes, so two lanes fall outside the loaded 16-bit value and lanes
rotated above bit 15 are truncated by the 16-bit store. -/
theorem rgba_convert_counterexample :
    validOrder ordARGB ∧ validOrder ordRGBA ∧
    DDS_FORMAT_ABGR4 ≤ DDS_FORMAT_ARGB4 ∧ DDS_FORMAT_ARGB4 ≤ DDS_FORMAT_RGBA8 ∧
    (rgba_convert DDS_FORMAT_ARGB4 ordARGB ordRGBA [171, 205, 0, 0]).bind
      (rgba_convert DDS_FORMAT_ARGB4 ordRGBA ordARGB) = some [0, 13, 0, 0] ∧
    ¬ ((rgba_convert DDS_FORMAT_ARGB4 ordARGB ordRGBA [171, 205, 0, 0]).bind
      (rgba_convert DDS_FORMAT_ARGB4 ordRGBA ordARGB) = some [171, 205, 0, 0]) := by
  decide

/-- Claim C3 amended: for every uncompressed 32-bit RGBA format (between
ABGR8 and RGBA8 inclusive) and any two valid 4-character channel orders A
and B, applying the channel permutation from A to B and then from B back
to A restores the original buffer (bytes below 256, length a multiple of
the 4-byte group size).  For the 16-bit formats ABGR4..RGBA4 the
conversion is lossy and the round trip fails. -/
theorem rgba_convert_roundtrip (format : Nat) (inO outO : List RGBAChan)
    (buf : List Nat)
    (hf : DDS_FORMAT_ABGR8 ≤ format ∧ format ≤ DDS_FORMAT_RGBA8)
    (hin : validOrder inO) (hout : validOrder outO)
    (hlen : buf.length % 4 = 0) (hbytes : ∀ b ∈ buf, b < 256) :
    (rgba_convert format inO outO buf).bind (rgba_convert format outO inO) =
      some buf := by
  have hbpp : dds_bpp format = some 32 := by
    simp only [DDS_FORMAT_ABGR8, DDS_FORMAT_RGBA8] at hf
    obtain ⟨hf1, hf2⟩ := hf
    interval_cases format <;> decide
  have hrange : DDS_FORMAT_ABGR4 ≤ format ∧ format ≤ DDS_FORMAT_RGBA8 := by
    simp only [DDS_FORMAT_ABGR8, DDS_FORMAT_RGBA8] at hf
    simp only [DDS_FORMAT_ABGR4, DDS_FORMAT_RGBA8]
    omega
  simp only [rgba_convert, hbpp]
  by_cases heq : inO = outO
  · subst heq
    simp [hrange]
  · have hne2 : outO ≠ inO := fun e => heq e.symm
    simp [hrange, heq, hne2, convert_groups32_roundtrip hin hout buf hlen hbytes]

/-- Witness for the amended C3: format ARGB8, orders ARGB and RGBA, buffer
`[1, 2, 3, 4]`. -/
theorem rgba_convert_roundtrip_witness :
    ((DDS_FORMAT_ABGR8 ≤ DDS_FORMAT_ARGB8 ∧ DDS_FORMAT_ARGB8 ≤ DDS_FORMAT_RGBA8) ∧
     validOrder ordARGB ∧ validOrder ordRGBA ∧
     ([1, 2, 3, 4] : List Nat).length % 4 = 0) ∧
    (rgba_convert DDS_FORMAT_ARGB8 ordARGB ordRGBA [1, 2, 3, 4]).bind
      (rgba_convert DDS_FORMAT_ARGB8 ordRGBA ordARGB) = some [1, 2, 3, 4] :=
  ⟨⟨⟨by decide, by decide⟩, by decide, by decide, by decide⟩,
   rgba_convert_roundtrip DDS_FORMAT_ARGB8 ordARGB ordRGBA [1, 2, 3, 4]
     ⟨by decide, by decide⟩ (by decide) (by decide) (by decide)
     (by intro b hb; fin_cases hb <;> decide)⟩

/-! ## Morton (Z-order) transform (src/gust_g1t.c lines 409-493)

`mortonize` moves whole `bytes_per_element`-sized chunks (one `memcpy` per
element), so buffers are modelled at element granularity: a `List α` of
opaque elements, the byte size being `bytes_per_element * buf.length`.
The C size assert `bytes_per_element * width * height == size` becomes
`w * h = buf.length` (equivalent, as `bytes_per_element > 0` whenever the
preceding asserts pass). -/

/-- Inflate a 32-bit value by interleaving 0 bits at odd positions
(`inflate_bits` of src/gust_g1t.c).  All intermediate values stay below
`2 ^ 32`, so plain `Nat` arithmetic coincides with the C `uint32_t`
arithmetic. -/
def inflate_bits (x : Nat) : Nat :=
  let x1 := x &&& 0x0000FFFF
  let x2 := (x1 ||| (x1 <<< 8)) &&& 0x00FF00FF
  let x3 := (x2 ||| (x2 <<< 4)) &&& 0x0F0F0F0F
  let x4 := (x3 ||| (x3 <<< 2)) &&& 0x33333333
  (x4 ||| (x4 <<< 1)) &&& 0x55555555

/-- Deflate a 32-bit value by deinterleaving all odd bits
(`deflate_bits` of src/gust_g1t.c). -/
def deflate_bits (x : Nat) : Nat :=
  let x1 := x &&& 0x55555555
  let x2 := (x1 ||| (x1 >>> 1)) &&& 0x33333333
  let x3 := (x2 ||| (x2 >>> 2)) &&& 0x0F0F0F0F
  let x4 := (x3 ||| (x3 >>> 4)) &&& 0x00FF00FF
  (x4 ||| (x4 >>> 8)) &&& 0x0000FFFF

/-- `xy_to_morton` of src/gust_g1t.c: even bits from `y`, odd bits from
`x`. -/
def xy_to_morton (x y : Nat) : Nat :=
  (inflate_bits x <<< 1) ||| (inflate_bits y <<< 0)

/-- `morton_to_xy` of src/gust_g1t.c, returning the `(x, y)` pair instead
of writing through pointers. -/
def morton_to_xy (z : Nat) : Nat × Nat :=
  (deflate_bits (z >>> 1), deflate_bits (z >>> 0))

/-- Destination index computed by the forward (`morton_order > 0`) branch
of the copy loop of `mortonize` for source element index `i`. -/
def mortonFwdIdx (k width i : Nat) : Nat :=
  let tile_width := 1 <<< k
  let tile_size := tile_width * tile_width
  let mask := tile_size - 1
  let x := i % width
  let y := i / width
  (xy_to_morton x y &&& mask) +
    ((y / tile_width) * (width / tile_width) + x / tile_width) * tile_size

/-- Destination index computed by the reverse (`morton_order < 0`) branch
of the copy loop of `mortonize` for source element index `i`. -/
def mortonRevIdx (k width i : Nat) : Nat :=
  let tile_width := 1 <<< k
  let tile_size := tile_width * tile_width
  let mask := tile_size - 1
  let p := morton_to_xy (i &&& mask)
  let x := p.1 + ((i / tile_size) % (width / tile_width)) * tile_width
  let y := p.2 + ((i / tile_size) / (width / tile_width)) * tile_width
  y * width + x

/-- The copy loop of `mortonize`: element `i` of the source is written to
position `f i` of a fresh buffer (`tmp_buf`), which then replaces the
source.  Positions never written keep the `malloc` garbage of `tmp_buf`;
that garbage is modelled by `default`.  (Under the preconditions proved
below, `f` is a bijection and no position is left unwritten.) -/
def scatter [Inhabited α] (f : Nat → Nat) (l : List α) : List α :=
  (l.enum.foldl (fun acc p => acc.set (f p.1) (some p.2))
    (List.replicate l.length (none : Option α))).map (fun o => o.getD default)

/-- The `mortonize` function of src/gust_g1t.c.  Each C `assert` is a
guard returning `none`, in source order; `wf = 0` (a division by zero in
the C) also yields `none`; the per-iteration assert `j < num_elements` is
the final guard.  The C `k <= log2(max(width, height))` with the real
`log2` is, for integer `k`, exactly `2 ^ k ≤ max w h` (and false when both
are zero, as `log2(0) = -inf`). -/
def mortonize [Inhabited α] (format : Nat) (morton_order : Int)
    (width height : Nat) (buf : List α) (wf : Nat) : Option (List α) :=
  match dds_bpp format with
  | none => none
  | some bpp =>
    if dds_bwh format * wf = 0 then none
    else
      let bits_per_element := bpp * dds_bwh format * dds_bwh format * wf
      let w := width / (dds_bwh format * wf)
      let h := height / dds_bwh format
      let num_elements := buf.length
      let k := morton_order.natAbs
      let reverse := morton_order < 0
      if bits_per_element % 8 ≠ 0 then none
      else if w * h ≠ num_elements then none
      else if ¬ (w < 65536 ∧ h < 65536) then none
      else if w % (1 <<< k) ≠ 0 then none
      else if h % (1 <<< k) ≠ 0 then none
      else if ¬ (2 ^ k ≤ max w h) then none
      else if ∀ i ∈ List.range num_elements,
          (if reverse then mortonRevIdx k w i else mortonFwdIdx k w i) < num_elements then
        some (scatter (fun i => if reverse then mortonRevIdx k w i else mortonFwdIdx k w i) buf)
      else none

/-! ### Bit-level characterisation of inflate/deflate -/

theorem mask16_testBit (i : Nat) : (0x0000FFFF : Nat).testBit i = decide (i < 16) := by
  have h : (0x0000FFFF : Nat) = 2 ^ 16 - 1 := by norm_num
  rw [h, Nat.testBit_two_pow_sub_one]

theorem maskFF00FF_testBit (i : Nat) :
    (0x00FF00FF : Nat).testBit i = decide (i < 32 ∧ i % 16 < 8) := by
  rcases Nat.lt_or_ge i 32 with h | h
  · interval_cases i <;> decide
  · rw [testBit_false_of_ge 32 i (by norm_num) h]
    symm
    simp only [decide_eq_false_iff_not]
    omega

theorem mask0F0F_testBit (i : Nat) :
    (0x0F0F0F0F : Nat).testBit i = decide (i < 32 ∧ i % 8 < 4) := by
  rcases Nat.lt_or_ge i 32 with h | h
  · interval_cases i <;> decide
  · rw [testBit_false_of_ge 32 i (by norm_num) h]
    symm
    simp only [decide_eq_false_iff_not]
    omega

theorem mask33_testBit (i : Nat) :
    (0x33333333 : Nat).testBit i = decide (i < 32 ∧ i % 4 < 2) := by
  rcases Nat.lt_or_ge i 32 with h | h
  · interval_cases i <;> decide
  · rw [testBit_false_of_ge 32 i (by norm_num) h]
    symm
    simp only [decide_eq_false_iff_not]
    omega

theorem mask55_testBit (i : Nat) :
    (0x55555555 : Nat).testBit i = decide (i < 32 ∧ i % 2 = 0) := by
  rcases Nat.lt_or_ge i 32 with h | h
  · interval_cases i <;> decide
  · rw [testBit_false_of_ge 32 i (by norm_num) h]
    symm
    simp only [decide_eq_false_iff_not]
    omega

theorem inflate_bits_lt (x : Nat) : inflate_bits x < 2 ^ 32 :=
  lt_of_le_of_lt Nat.and_le_right (by norm_num)

theorem deflate_bits_lt (x : Nat) : deflate_bits x < 2 ^ 16 :=
  lt_of_le_of_lt Nat.and_le_right (by norm_num)

/-- Bit `i` of `inflate_bits x`: the even positions below 32 carry the low
16 bits of `x`. -/
theorem inflate_bits_testBit (x i : Nat) :
    (inflate_bits x).testBit i =
      (decide (i < 32 ∧ i % 2 = 0) && x.testBit (i / 2)) := by
  rcases Nat.lt_or_ge i 32 with h | h
  · unfold inflate_bits
    interval_cases i <;>
      simp [Nat.testBit_lor, Nat.testBit_land, Nat.testBit_shiftLeft,
        mask16_testBit, maskFF00FF_testBit, mask0F0F_testBit, mask33_testBit,
        mask55_testBit]
  · rw [testBit_false_of_ge 32 i (inflate_bits_lt x) h]
    symm
    simp only [Bool.and_eq_false_iff, decide_eq_false_iff_not]
    left
    omega

/-- Bit `i` of `deflate_bits x`: position `i < 16` carries bit `2 * i` of
`x`. -/
theorem deflate_bits_testBit (x i : Nat) :
    (deflate_bits x).testBit i = (decide (i < 16) && x.testBit (2 * i)) := by
  rcases Nat.lt_or_ge i 16 with h | h
  · unfold deflate_bits
    interval_cases i <;>
      simp [Nat.testBit_lor, Nat.testBit_land, Nat.testBit_shiftRight,
        mask16_testBit, maskFF00FF_testBit, mask0F0F_testBit, mask33_testBit,
        mask55_testBit]
  · rw [testBit_false_of_ge 16 i (deflate_bits_lt x) h]
    symm
    simp only [Bool.and_eq_false_iff, decide_eq_false_iff_not]
    left
    omega

/-- Bit `t` of `xy_to_morton x y`: odd positions from `x`, even from `y`. -/
theorem xy_to_morton_testBit (x y t : Nat) :
    (xy_to_morton x y).testBit t =
      ((decide (t < 32 ∧ t % 2 = 1) && x.testBit (t / 2)) ||
       (decide (t < 32 ∧ t % 2 = 0) && y.testBit (t / 2))) := by
  unfold xy_to_morton
  rw [Nat.testBit_lor, Nat.testBit_shiftLeft, Nat.shiftLeft_zero,
      inflate_bits_testBit, inflate_bits_testBit]
  by_cases h1 : t % 2 = 1
  · have e0 : (decide (t ≥ 1)) = true := by
      simp only [decide_eq_true_eq, ge_iff_le]
      omega
    have e12 : (decide (t - 1 < 32 ∧ (t - 1) % 2 = 0)) = decide (t < 32) := by
      rw [decide_eq_decide]
      omega
    have e3 : (t - 1) / 2 = t / 2 := by omega
    have e4 : (decide (t < 32 ∧ t % 2 = 0)) = false := by
      simp only [decide_eq_false_iff_not]
      omega
    have e5 : (decide (t < 32 ∧ t % 2 = 1)) = decide (t < 32) := by
      rw [decide_eq_decide]
      omega
    rw [e0, e12, e3, e4, e5]
    simp
  · have h0 : t % 2 = 0 := by omega
    have e4 : (decide (t < 32 ∧ t % 2 = 1)) = false := by
      simp only [decide_eq_false_iff_not]
      omega
    have e5 : (decide (t < 32 ∧ t % 2 = 0)) = decide (t < 32) := by
      rw [decide_eq_decide]
      omega
    rw [e4, e5]
    by_cases ht0 : t = 0
    · subst ht0
      simp
    · have e0 : (decide (t ≥ 1)) = true := by
        simp only [decide_eq_true_eq, ge_iff_le]
        omega
      have e1 : (decide ((t - 1) < 32 ∧ (t - 1) % 2 = 0)) = false := by
        simp only [decide_eq_false_iff_not]
        omega
      rw [e0, e1]
      simp

/-! ### Derived identities of the Morton coordinate maps -/

/-- Truncating a Morton value to `2k` bits truncates each coordinate to
`k` bits. -/
theorem xy_to_morton_mod (x y k : Nat) :
    xy_to_morton x y % 2 ^ (2 * k) = xy_to_morton (x % 2 ^ k) (y % 2 ^ k) := by
  apply Nat.eq_of_testBit_eq
  intro t
  rw [Nat.testBit_mod_two_pow, xy_to_morton_testBit, xy_to_morton_testBit,
      Nat.testBit_mod_two_pow, Nat.testBit_mod_two_pow]
  by_cases ht : t < 2 * k
  · have e1 : (decide (t < 2 * k)) = true := by simp [ht]
    have e2 : (decide (t / 2 < k)) = true := by
      simp only [decide_eq_true_eq]
      omega
    rw [e1, e2]
    simp [Bool.and_comm, Bool.and_assoc, Bool.and_left_comm]
  · have e1 : (decide (t < 2 * k)) = false := by simp [ht]
    have e2 : (decide (t / 2 < k)) = false := by
      simp only [decide_eq_false_iff_not]
      omega
    rw [e1, e2]
    simp

/-- Recovering the coordinates from a Morton value: the `x` half. -/
theorem deflate_shiftRight_xy_to_morton (x y : Nat) :
    deflate_bits (xy_to_morton x y >>> 1) = x % 2 ^ 16 := by
  apply Nat.eq_of_testBit_eq
  intro i
  rw [deflate_bits_testBit, Nat.testBit_shiftRight, xy_to_morton_testBit,
      Nat.testBit_mod_two_pow]
  have e1 : (1 + 2 * i) % 2 = 1 := by omega
  have e2 : (1 + 2 * i) / 2 = i := by omega
  by_cases hi : i < 16
  · have e3 : (decide (1 + 2 * i < 32 ∧ (1 + 2 * i) % 2 = 1)) = true := by
      simp only [decide_eq_true_eq]
      omega
    have e4 : (decide (1 + 2 * i < 32 ∧ (1 + 2 * i) % 2 = 0)) = false := by
      simp only [decide_eq_false_iff_not]
      omega
    rw [e3, e4, e2]
    simp [hi]
  · have e3 : (decide (1 + 2 * i < 32 ∧ (1 + 2 * i) % 2 = 1)) = false := by
      simp only [decide_eq_false_iff_not]
      omega
    have e4 : (decide (1 + 2 * i < 32 ∧ (1 + 2 * i) % 2 = 0)) = false := by
      simp only [decide_eq_false_iff_not]
      omega
    rw [e3, e4]
    simp [hi]

/-- Recovering the coordinates from a Morton value: the `y` half. -/
theorem deflate_xy_to_morton (x y : Nat) :
    deflate_bits (xy_to_morton x y) = y % 2 ^ 16 := by
  apply Nat.eq_of_testBit_eq
  intro i
  rw [deflate_bits_testBit, xy_to_morton_testBit, Nat.testBit_mod_two_pow]
  have e1 : (2 * i) % 2 = 0 := by omega
  have e2 : (2 * i) / 2 = i := by omega
  by_cases hi : i < 16
  · have e3 : (decide (2 * i < 32 ∧ (2 * i) % 2 = 1)) = false := by
      simp only [decide_eq_false_iff_not]
      omega
    have e4 : (decide (2 * i < 32 ∧ (2 * i) % 2 = 0)) = true := by
      simp only [decide_eq_true_eq]
      omega
    rw [e3, e4, e2]
    simp [hi]
  · have e3 : (decide (2 * i < 32 ∧ (2 * i) % 2 = 1)) = false := by
      simp only [decide_eq_false_iff_not]
      omega
    have e4 : (decide (2 * i < 32 ∧ (2 * i) % 2 = 0)) = false := by
      simp only [decide_eq_false_iff_not]
      omega
    rw [e3, e4]
    simp [hi]

/-- Rebuilding a Morton value from its deflated halves. -/
theorem xy_to_morton_deflate (r : Nat) :
    xy_to_morton (deflate_bits (r >>> 1)) (deflate_bits r) = r % 2 ^ 32 := by
  apply Nat.eq_of_testBit_eq
  intro t
  rw [xy_to_morton_testBit, Nat.testBit_mod_two_pow, deflate_bits_testBit,
      deflate_bits_testBit, Nat.testBit_shiftRight]
  by_cases ht : t < 32
  · by_cases h2 : t % 2 = 1
    · have e1 : (decide (t < 32 ∧ t % 2 = 1)) = true := by
        simp only [decide_eq_true_eq]
        omega
      have e2 : (decide (t < 32 ∧ t % 2 = 0)) = false := by
        simp only [decide_eq_false_iff_not]
        omega
      have e3 : (decide (t / 2 < 16)) = true := by
        simp only [decide_eq_true_eq]
        omega
      have e4 : 1 + 2 * (t / 2) = t := by omega
      rw [e1, e2, e3, e4]
      simp [ht]
    · have e1 : (decide (t < 32 ∧ t % 2 = 1)) = false := by
        simp only [decide_eq_false_iff_not]
        omega
      have e2 : (decide (t < 32 ∧ t % 2 = 0)) = true := by
        simp only [decide_eq_true_eq]
        omega
      have e3 : (decide (t / 2 < 16)) = true := by
        simp only [decide_eq_true_eq]
        omega
      have e4 : 2 * (t / 2) = t := by omega
      rw [e1, e2, e3, e4]
      simp [ht]
  · have e1 : (decide (t < 32 ∧ t % 2 = 1)) = false := by
      simp only [decide_eq_false_iff_not]
      omega
    have e2 : (decide (t < 32 ∧ t % 2 = 0)) = false := by
      simp only [decide_eq_false_iff_not]
      omega
    rw [e1, e2]
    simp [ht]

/-- A deflated `2k`-bit value fits in `k` bits. -/
theorem deflate_bits_lt_of_lt (z k : Nat) (hz : z < 2 ^ (2 * k)) :
    deflate_bits z < 2 ^ k := by
  apply Nat.lt_pow_two_of_testBit
  intro i hi
  rw [deflate_bits_testBit]
  rcases Nat.lt_or_ge i 16 with h16 | h16
  · rw [testBit_false_of_ge (2 * k) (2 * i) hz (by omega)]
    simp
  · have e : (decide (i < 16)) = false := by
      simp only [decide_eq_false_iff_not]
      omega
    rw [e]
    simp

theorem deflate_bits_shiftRight_lt_of_lt (z k : Nat) (hz : z < 2 ^ (2 * k)) :
    deflate_bits (z >>> 1) < 2 ^ k := by
  apply Nat.lt_pow_two_of_testBit
  intro i hi
  rw [deflate_bits_testBit, Nat.testBit_shiftRight]
  rcases Nat.lt_or_ge i 16 with h16 | h16
  · rw [testBit_false_of_ge (2 * k) (1 + 2 * i) hz (by omega)]
    simp
  · have e : (decide (i < 16)) = false := by
      simp only [decide_eq_false_iff_not]
      omega
    rw [e]
    simp

/-! ### The forward and reverse index maps are mutually inverse bijections
of the element range -/

theorem mortonFwdIdx_spec (k w h i : Nat)
    (hkw : 2 ^ k ∣ w) (hkh : 2 ^ k ∣ h) (hw0 : 0 < w) (hh0 : 0 < h)
    (hw16 : w < 2 ^ 16) (hh16 : h < 2 ^ 16) (hi : i < w * h) :
    mortonFwdIdx k w i < w * h ∧ mortonRevIdx k w (mortonFwdIdx k w i) = i := by
  have hT1 : (1 <<< k : Nat) = 2 ^ k := by rw [Nat.shiftLeft_eq, Nat.one_mul]
  have hTS : (2 ^ k : Nat) * 2 ^ k = 2 ^ (2 * k) := by
    rw [← pow_add]
    congr 1
    omega
  have hTpos : (0:Nat) < 2 ^ k := Nat.two_pow_pos k
  have hTw : 2 ^ k ≤ w := Nat.le_of_dvd hw0 hkw
  have hk16 : k < 16 :=
    (Nat.pow_lt_pow_iff_right (by norm_num)).1 (lt_of_le_of_lt hTw hw16)
  have hkk : (2 ^ k : Nat) ≤ 2 ^ 16 := Nat.pow_le_pow_right (by norm_num) (by omega)
  have hB0 : 0 < w / 2 ^ k := (Nat.one_le_div_iff hTpos).2 hTw
  have hwB : w / 2 ^ k * 2 ^ k = w := Nat.div_mul_cancel hkw
  have hhA : h / 2 ^ k * 2 ^ k = h := Nat.div_mul_cancel hkh
  have hwh : w * h = (h / 2 ^ k) * (w / 2 ^ k) * (2 ^ k * 2 ^ k) := by
    conv_lhs => rw [← hwB, ← hhA]
    ring
  set x := i % w with hx
  set y := i / w with hy
  have hxw : x < w := Nat.mod_lt _ hw0
  have hyh : y < h := by
    rw [hy]
    exact (Nat.div_lt_iff_lt_mul hw0).2 (by rw [mul_comm] at hi; exact hi)
  have hxT : x / 2 ^ k < w / 2 ^ k := Nat.div_lt_div_of_lt_of_dvd hkw hxw
  have hyT : y / 2 ^ k < h / 2 ^ k := Nat.div_lt_div_of_lt_of_dvd hkh hyh
  have hmlt : xy_to_morton (x % 2 ^ k) (y % 2 ^ k) < 2 ^ (2 * k) := by
    rw [← xy_to_morton_mod]
    exact Nat.mod_lt _ (Nat.two_pow_pos _)
  have hfwd : mortonFwdIdx k w i =
      xy_to_morton (x % 2 ^ k) (y % 2 ^ k) +
        ((y / 2 ^ k) * (w / 2 ^ k) + x / 2 ^ k) * 2 ^ (2 * k) := by
    simp only [mortonFwdIdx]
    rw [hT1, hTS, Nat.and_pow_two_sub_one_eq_mod, xy_to_morton_mod]
  have htile : (y / 2 ^ k) * (w / 2 ^ k) + x / 2 ^ k + 1 ≤
      (h / 2 ^ k) * (w / 2 ^ k) := by
    calc (y / 2 ^ k) * (w / 2 ^ k) + x / 2 ^ k + 1
        ≤ (y / 2 ^ k) * (w / 2 ^ k) + (w / 2 ^ k) := by omega
    _ = ((y / 2 ^ k) + 1) * (w / 2 ^ k) := by ring
    _ ≤ (h / 2 ^ k) * (w / 2 ^ k) := Nat.mul_le_mul_right _ (by omega)
  constructor
  · rw [hfwd, hwh]
    calc xy_to_morton (x % 2 ^ k) (y % 2 ^ k) +
          ((y / 2 ^ k) * (w / 2 ^ k) + x / 2 ^ k) * 2 ^ (2 * k)
        < 2 ^ (2 * k) + ((y / 2 ^ k) * (w / 2 ^ k) + x / 2 ^ k) * 2 ^ (2 * k) :=
          Nat.add_lt_add_right hmlt _
    _ = ((y / 2 ^ k) * (w / 2 ^ k) + x / 2 ^ k + 1) * 2 ^ (2 * k) := by ring
    _ ≤ (h / 2 ^ k) * (w / 2 ^ k) * 2 ^ (2 * k) :=
          Nat.mul_le_mul_right _ htile
    _ = (h / 2 ^ k) * (w / 2 ^ k) * (2 ^ k * 2 ^ k) := by rw [hTS]
  · rw [hfwd]
    simp only [mortonRevIdx, morton_to_xy]
    rw [hT1, hTS, Nat.and_pow_two_sub_one_eq_mod]
    rw [Nat.add_mul_mod_self_right, Nat.mod_eq_of_lt hmlt]
    rw [Nat.shiftRight_zero]
    rw [deflate_shiftRight_xy_to_morton, deflate_xy_to_morton]
    rw [Nat.mod_eq_of_lt (lt_of_lt_of_le (Nat.mod_lt x hTpos) hkk),
        Nat.mod_eq_of_lt (lt_of_lt_of_le (Nat.mod_lt y hTpos) hkk)]
    rw [Nat.add_mul_div_right _ _ (Nat.two_pow_pos (2 * k)),
        Nat.div_eq_of_lt hmlt, Nat.zero_add]
    rw [add_comm ((y / 2 ^ k) * (w / 2 ^ k)) (x / 2 ^ k)]
    rw [Nat.add_mul_mod_self_right, Nat.mod_eq_of_lt hxT]
    rw [Nat.add_mul_div_right _ _ hB0, Nat.div_eq_of_lt hxT, Nat.zero_add]
    have hxx : x % 2 ^ k + x / 2 ^ k * 2 ^ k = x := by
      rw [mul_comm]
      exact Nat.mod_add_div x (2 ^ k)
    have hyy : y % 2 ^ k + y / 2 ^ k * 2 ^ k = y := by
      rw [mul_comm]
      exact Nat.mod_add_div y (2 ^ k)
    rw [hxx, hyy, hx, hy, mul_comm (i / w) w]
    exact Nat.div_add_mod i w

theorem mortonRevIdx_spec (k w h i : Nat)
    (hkw : 2 ^ k ∣ w) (hkh : 2 ^ k ∣ h) (hw0 : 0 < w) (hh0 : 0 < h)
    (hw16 : w < 2 ^ 16) (hh16 : h < 2 ^ 16) (hi : i < w * h) :
    mortonRevIdx k w i < w * h ∧ mortonFwdIdx k w (mortonRevIdx k w i) = i := by
  have hT1 : (1 <<< k : Nat) = 2 ^ k := by rw [Nat.shiftLeft_eq, Nat.one_mul]
  have hTS : (2 ^ k : Nat) * 2 ^ k = 2 ^ (2 * k) := by
    rw [← pow_add]
    congr 1
    omega
  have hTpos : (0:Nat) < 2 ^ k := Nat.two_pow_pos k
  have hTw : 2 ^ k ≤ w := Nat.le_of_dvd hw0 hkw
  have hTh : 2 ^ k ≤ h := Nat.le_of_dvd hh0 hkh
  have hk16 : k < 16 :=
    (Nat.pow_lt_pow_iff_right (by norm_num)).1 (lt_of_le_of_lt hTw hw16)
  have hkk : (2 ^ k : Nat) ≤ 2 ^ 16 := Nat.pow_le_pow_right (by norm_num) (by omega)
  have h2k32 : (2 ^ (2 * k) : Nat) ≤ 2 ^ 32 := Nat.pow_le_pow_right (by norm_num) (by omega)
  have hB0 : 0 < w / 2 ^ k := (Nat.one_le_div_iff hTpos).2 hTw
  have hA0 : 0 < h / 2 ^ k := (Nat.one_le_div_iff hTpos).2 hTh
  have hwB : w / 2 ^ k * 2 ^ k = w := Nat.div_mul_cancel hkw
  have hhA : h / 2 ^ k * 2 ^ k = h := Nat.div_mul_cancel hkh
  have hwh : w * h = (h / 2 ^ k) * (w / 2 ^ k) * (2 ^ k * 2 ^ k) := by
    conv_lhs => rw [← hwB, ← hhA]
    ring
  set r := i % 2 ^ (2 * k) with hr
  set q := i / 2 ^ (2 * k) with hq
  have hrlt : r < 2 ^ (2 * k) := Nat.mod_lt _ (Nat.two_pow_pos _)
  have hqlt : q < (h / 2 ^ k) * (w / 2 ^ k) := by
    rw [hq]
    apply (Nat.div_lt_iff_lt_mul (Nat.two_pow_pos _)).2
    rw [← hTS]
    calc i < w * h := hi
    _ = (h / 2 ^ k) * (w / 2 ^ k) * (2 ^ k * 2 ^ k) := hwh
  set x0 := deflate_bits (r >>> 1) with hx0
  set y0 := deflate_bits r with hy0
  have hx0T : x0 < 2 ^ k := deflate_bits_shiftRight_lt_of_lt r k hrlt
  have hy0T : y0 < 2 ^ k := deflate_bits_lt_of_lt r k hrlt
  have hrev : mortonRevIdx k w i =
      (y0 + (q / (w / 2 ^ k)) * 2 ^ k) * w + (x0 + (q % (w / 2 ^ k)) * 2 ^ k) := by
    simp only [mortonRevIdx, morton_to_xy]
    rw [hT1, hTS, Nat.and_pow_two_sub_one_eq_mod, Nat.shiftRight_zero]
  have hxw : x0 + (q % (w / 2 ^ k)) * 2 ^ k < w := by
    have hqm : q % (w / 2 ^ k) < w / 2 ^ k := Nat.mod_lt _ hB0
    calc x0 + (q % (w / 2 ^ k)) * 2 ^ k
        < 2 ^ k + (q % (w / 2 ^ k)) * 2 ^ k := Nat.add_lt_add_right hx0T _
    _ = (q % (w / 2 ^ k) + 1) * 2 ^ k := by ring
    _ ≤ (w / 2 ^ k) * 2 ^ k := Nat.mul_le_mul_right _ (by omega)
    _ = w := hwB
  have hqd : q / (w / 2 ^ k) < h / 2 ^ k :=
    (Nat.div_lt_iff_lt_mul hB0).2 hqlt
  have hyh : y0 + (q / (w / 2 ^ k)) * 2 ^ k < h := by
    calc y0 + (q / (w / 2 ^ k)) * 2 ^ k
        < 2 ^ k + (q / (w / 2 ^ k)) * 2 ^ k := Nat.add_lt_add_right hy0T _
    _ = (q / (w / 2 ^ k) + 1) * 2 ^ k := by ring
    _ ≤ (h / 2 ^ k) * 2 ^ k := Nat.mul_le_mul_right _ (by omega)
    _ = h := hhA
  constructor
  · rw [hrev]
    calc (y0 + (q / (w / 2 ^ k)) * 2 ^ k) * w + (x0 + (q % (w / 2 ^ k)) * 2 ^ k)
        < (y0 + (q / (w / 2 ^ k)) * 2 ^ k) * w + w := by omega
    _ = ((y0 + (q / (w / 2 ^ k)) * 2 ^ k) + 1) * w := by ring
    _ ≤ h * w := Nat.mul_le_mul_right _ (by omega)
    _ = w * h := mul_comm h w
  · rw [hrev]
    simp only [mortonFwdIdx]
    rw [hT1, hTS, Nat.and_pow_two_sub_one_eq_mod]
    have hxmod : ((y0 + (q / (w / 2 ^ k)) * 2 ^ k) * w +
        (x0 + (q % (w / 2 ^ k)) * 2 ^ k)) % w = x0 + (q % (w / 2 ^ k)) * 2 ^ k := by
      rw [add_comm ((y0 + (q / (w / 2 ^ k)) * 2 ^ k) * w)
          (x0 + (q % (w / 2 ^ k)) * 2 ^ k), Nat.add_mul_mod_self_right]
      exact Nat.mod_eq_of_lt hxw
    have hydiv : ((y0 + (q / (w / 2 ^ k)) * 2 ^ k) * w +
        (x0 + (q % (w / 2 ^ k)) * 2 ^ k)) / w = y0 + (q / (w / 2 ^ k)) * 2 ^ k := by
      rw [add_comm ((y0 + (q / (w / 2 ^ k)) * 2 ^ k) * w)
          (x0 + (q % (w / 2 ^ k)) * 2 ^ k), Nat.add_mul_div_right _ _ hw0,
          Nat.div_eq_of_lt hxw, Nat.zero_add]
    rw [hxmod, hydiv]
    have hxm : (x0 + (q % (w / 2 ^ k)) * 2 ^ k) % 2 ^ k = x0 := by
      rw [Nat.add_mul_mod_self_right]
      exact Nat.mod_eq_of_lt hx0T
    have hym : (y0 + (q / (w / 2 ^ k)) * 2 ^ k) % 2 ^ k = y0 := by
      rw [Nat.add_mul_mod_self_right]
      exact Nat.mod_eq_of_lt hy0T
    have hxd : (x0 + (q % (w / 2 ^ k)) * 2 ^ k) / 2 ^ k = q % (w / 2 ^ k) := by
      rw [Nat.add_mul_div_right _ _ hTpos, Nat.div_eq_of_lt hx0T, Nat.zero_add]
    have hyd : (y0 + (q / (w / 2 ^ k)) * 2 ^ k) / 2 ^ k = q / (w / 2 ^ k) := by
      rw [Nat.add_mul_div_right _ _ hTpos, Nat.div_eq_of_lt hy0T, Nat.zero_add]
    rw [xy_to_morton_mod, hxm, hym, hxd, hyd]
    have hmr : xy_to_morton x0 y0 = r := by
      rw [hx0, hy0, xy_to_morton_deflate]
      exact Nat.mod_eq_of_lt (lt_of_lt_of_le hrlt h2k32)
    rw [hmr]
    have hqq : (q / (w / 2 ^ k)) * (w / 2 ^ k) + q % (w / 2 ^ k) = q := by
      rw [mul_comm]
      exact Nat.div_add_mod q (w / 2 ^ k)
    rw [hqq, hr, hq, mul_comm (i / 2 ^ (2 * k)) (2 ^ (2 * k))]
    exact Nat.mod_add_div i (2 ^ (2 * k))

/-! ### Generic facts about the scatter copy loop -/

theorem writeAll_length (f : Nat → Nat) (ws : List (Nat × α)) :
    ∀ init : List (Option α),
      (ws.foldl (fun acc p => acc.set (f p.1) (some p.2)) init).length = init.length := by
  induction ws with
  | nil => intro init; rfl
  | cons q ws ih =>
    intro init
    rw [List.foldl_cons, ih, List.length_set]

theorem writeAll_get_of_not_written (f : Nat → Nat) (ws : List (Nat × α)) (j : Nat) :
    ∀ init : List (Option α), (∀ p ∈ ws, f p.1 ≠ j) →
      (ws.foldl (fun acc p => acc.set (f p.1) (some p.2)) init)[j]? = init[j]? := by
  induction ws with
  | nil => intro init _; rfl
  | cons q ws ih =>
    intro init hno
    rw [List.foldl_cons, ih _ (fun p hp => hno p (List.mem_cons_of_mem q hp)),
        List.getElem?_set]
    rw [if_neg (hno q (List.mem_cons_self q ws))]

theorem writeAll_get_of_written (f : Nat → Nat) (ws : List (Nat × α)) (j : Nat) (a : α) :
    ∀ init : List (Option α), j < init.length →
      (∃ p ∈ ws, f p.1 = j ∧ p.2 = a) →
      (∀ p ∈ ws, f p.1 = j → p.2 = a) →
      (ws.foldl (fun acc p => acc.set (f p.1) (some p.2)) init)[j]? = some (some a) := by
  induction ws with
  | nil =>
    intro init _ hex _
    obtain ⟨p, hp, _⟩ := hex
    exact absurd hp (List.not_mem_nil p)
  | cons q ws ih =>
    intro init hj hex huniq
    rw [List.foldl_cons]
    rcases Classical.em (∃ p ∈ ws, f p.1 = j) with hq | hq
    · obtain ⟨p, hp, hpj⟩ := hq
      exact ih _ (by rw [List.length_set]; exact hj)
        ⟨p, hp, hpj, huniq p (List.mem_cons_of_mem q hp) hpj⟩
        (fun p hp hpj => huniq p (List.mem_cons_of_mem q hp) hpj)
    · push_neg at hq
      rw [writeAll_get_of_not_written f ws j _ hq]
      obtain ⟨p, hp, hpj, hpa⟩ := hex
      rcases List.mem_cons.1 hp with rfl | hp
      · rw [List.getElem?_set, if_pos hpj, if_pos (by omega), hpa]
      · exact absurd hpj (hq p hp)


theorem scatter_length [Inhabited α] (f : Nat → Nat) (l : List α) :
    (scatter f l).length = l.length := by
  unfold scatter
  rw [List.length_map, writeAll_length, List.length_replicate]

theorem scatter_get [Inhabited α] (f : Nat → Nat) (l : List α) (i : Nat)
    (hi : i < l.length) (hf : f i < l.length)
    (hinj : ∀ a b, a < l.length → b < l.length → f a = f b → a = b) :
    (scatter f l)[f i]? = l[i]? := by
  unfold scatter
  rw [List.getElem?_map]
  have hmem : (i, l.get ⟨i, hi⟩) ∈ l.enum := by
    rw [List.mem_enum_iff_get? ]
    exact List.get?_eq_get hi
  have hw := writeAll_get_of_written f l.enum (f i) (l.get ⟨i, hi⟩)
    (List.replicate l.length (none : Option α))
    (by rw [List.length_replicate]; exact hf)
    ⟨(i, l.get ⟨i, hi⟩), hmem, rfl, rfl⟩
    (by
      rintro ⟨j, b⟩ hp hfj
      have hjb : l.get? j = some b := List.mem_enum_iff_get?.1 hp
      have hjlt : j < l.length := by
        rcases Nat.lt_or_ge j l.length with h | h
        · exact h
        · rw [List.get?_eq_none.2 h] at hjb
          cases hjb
      have := hinj j i hjlt hi hfj
      subst this
      rw [List.get?_eq_get hjlt] at hjb
      exact (Option.some.inj hjb).symm)
  rw [hw, List.getElem?_eq_getElem hi]
  rfl

/-- Scattering through `f` and then through its inverse `g` restores the
buffer. -/
theorem scatter_scatter [Inhabited α] (f g : Nat → Nat) (l : List α)
    (hf : ∀ i, i < l.length → f i < l.length)
    (hg : ∀ i, i < l.length → g i < l.length)
    (hgf : ∀ i, i < l.length → g (f i) = i)
    (hfg : ∀ i, i < l.length → f (g i) = i) :
    scatter g (scatter f l) = l := by
  have hfinj : ∀ a b, a < l.length → b < l.length → f a = f b → a = b := by
    intro a b ha hb he
    have := congrArg g he
    rw [hgf a ha, hgf b hb] at this
    exact this
  have hginj : ∀ a b, a < l.length → b < l.length → g a = g b → a = b := by
    intro a b ha hb he
    have := congrArg f he
    rw [hfg a ha, hfg b hb] at this
    exact this
  have hlen1 : (scatter f l).length = l.length := scatter_length f l
  apply List.ext_getElem?
  intro j
  rcases Nat.lt_or_ge j l.length with hj | hj
  · have hfj : f j < l.length := hf j hj
    have e1 : j = g (f j) := (hgf j hj).symm
    calc (scatter g (scatter f l))[j]?
        = (scatter g (scatter f l))[g (f j)]? := by rw [← e1]
    _ = (scatter f l)[f j]? := by
          apply scatter_get g (scatter f l) (f j)
          · rw [hlen1]; exact hfj
          · rw [hlen1]; exact hg _ hfj
          · rw [hlen1]; exact hginj
    _ = l[j]? := scatter_get f l j hj hfj hfinj
  · rw [List.getElem?_eq_none, List.getElem?_eq_none hj]
    rw [scatter_length, hlen1]
    exact hj

/-- The scattered buffer is a permutation of the original. -/
theorem scatter_perm [Inhabited α] (f g : Nat → Nat) (l : List α)
    (hf : ∀ i, i < l.length → f i < l.length)
    (hg : ∀ i, i < l.length → g i < l.length)
    (hgf : ∀ i, i < l.length → g (f i) = i)
    (hfg : ∀ i, i < l.length → f (g i) = i) :
    (scatter f l).Perm l := by
  have hfinj : ∀ a b, a < l.length → b < l.length → f a = f b → a = b := by
    intro a b ha hb he
    have := congrArg g he
    rw [hgf a ha, hgf b hb] at this
    exact this
  have hlen1 : (scatter f l).length = l.length := scatter_length f l
  let e : Equiv.Perm (Fin l.length) :=
    ⟨fun j => ⟨g j.val, hg j.val j.isLt⟩, fun i => ⟨f i.val, hf i.val i.isLt⟩,
     fun j => Fin.ext (hfg j.val j.isLt), fun i => Fin.ext (hgf i.val i.isLt)⟩
  have hofn : scatter f l = List.ofFn (l.get ∘ e) := by
    apply List.ext_getElem?
    intro j
    rcases Nat.lt_or_ge j l.length with hj | hj
    · have hgj : g j < l.length := hg j hj
      have e1 : j = f (g j) := (hfg j hj).symm
      have h1 : (scatter f l)[j]? = l[g j]? := by
        calc (scatter f l)[j]? = (scatter f l)[f (g j)]? := by rw [← e1]
        _ = l[g j]? := scatter_get f l (g j) hgj (by rw [← e1]; exact hj) hfinj
      rw [h1]
      rw [List.getElem?_ofFn]
      rw [List.ofFnNthVal, dif_pos hj, List.getElem?_eq_getElem hgj]
      rfl
    · rw [List.getElem?_eq_none (by rw [hlen1]; exact hj),
          List.getElem?_ofFn, List.ofFnNthVal, dif_neg (by omega)]
  rw [hofn]
  have hp := Equiv.Perm.ofFn_comp_perm e l.get
  rw [List.ofFn_get] at hp
  exact hp

/-! ### Unfolding and success of `mortonize` -/

theorem mem_supported_of_bpp_eq_some {n b : Nat} (h : dds_bpp n = some b) :
    n ∈ dds_supported_formats :=
  (dds_bpp_isSome_iff n).1 (by rw [h]; rfl)

/-- On every supported format the element bit size `bpp * bwh * bwh * wf`
is a multiple of 8, so the first assert of `mortonize` never fires. -/
theorem dds_bits_dvd (f bpp : Nat) (h : dds_bpp f = some bpp) :
    8 ∣ bpp * dds_bwh f * dds_bwh f := by
  have hm := mem_supported_of_bpp_eq_some h
  fin_cases hm <;> (injection h with h1; subst h1; decide)

theorem dds_bits_mod8 (f bpp wf : Nat) (h : dds_bpp f = some bpp) :
    (bpp * dds_bwh f * dds_bwh f * wf) % 8 = 0 :=
  Nat.mod_eq_zero_of_dvd (Dvd.dvd.mul_right (dds_bits_dvd f bpp h) wf)

/-- Combined bound/inverse facts for the two Morton index maps, with the
positivity of `w` and `h` recovered from `i < w * h`. -/
theorem morton_maps_spec (k w h i : Nat) (hkw : 2 ^ k ∣ w) (hkh : 2 ^ k ∣ h)
    (hw16 : w < 2 ^ 16) (hh16 : h < 2 ^ 16) (hi : i < w * h) :
    mortonFwdIdx k w i < w * h ∧ mortonRevIdx k w (mortonFwdIdx k w i) = i ∧
    mortonRevIdx k w i < w * h ∧ mortonFwdIdx k w (mortonRevIdx k w i) = i := by
  have hw0 : 0 < w := by
    rcases Nat.eq_zero_or_pos w with rfl | hp
    · rw [Nat.zero_mul] at hi
      exact absurd hi (Nat.not_lt_zero i)
    · exact hp
  have hh0 : 0 < h := by
    rcases Nat.eq_zero_or_pos h with rfl | hp
    · rw [Nat.mul_zero] at hi
      exact absurd hi (Nat.not_lt_zero i)
    · exact hp
  obtain ⟨h1, h2⟩ := mortonFwdIdx_spec k w h i hkw hkh hw0 hh0 hw16 hh16 hi
  obtain ⟨h3, h4⟩ := mortonRevIdx_spec k w h i hkw hkh hw0 hh0 hw16 hh16 hi
  exact ⟨h1, h2, h3, h4⟩

/-- `mortonize` written as the explicit chain of its guards, once the
format has a defined `bpp`. -/
theorem mortonize_unfold [Inhabited α] (format : Nat) (mo : Int)
    (width height wf : Nat) (buf : List α) (bpp : Nat)
    (hbpp : dds_bpp format = some bpp) :
    mortonize format mo width height buf wf =
      (if dds_bwh format * wf = 0 then none
       else if (bpp * dds_bwh format * dds_bwh format * wf) % 8 ≠ 0 then none
       else if width / (dds_bwh format * wf) * (height / dds_bwh format) ≠ buf.length then none
       else if ¬ (width / (dds_bwh format * wf) < 65536 ∧ height / dds_bwh format < 65536) then
         none
       else if width / (dds_bwh format * wf) % (1 <<< mo.natAbs) ≠ 0 then none
       else if height / dds_bwh format % (1 <<< mo.natAbs) ≠ 0 then none
       else if ¬ (2 ^ mo.natAbs ≤
           max (width / (dds_bwh format * wf)) (height / dds_bwh format)) then none
       else if ∀ i ∈ List.range buf.length,
           (if mo < 0 then mortonRevIdx mo.natAbs (width / (dds_bwh format * wf)) i
            else mortonFwdIdx mo.natAbs (width / (dds_bwh format * wf)) i) < buf.length then
         some (scatter (fun i =>
           if mo < 0 then mortonRevIdx mo.natAbs (width / (dds_bwh format * wf)) i
           else mortonFwdIdx mo.natAbs (width / (dds_bwh format * wf)) i) buf)
       else none) := by
  unfold mortonize
  rw [hbpp]

/-- When every assert of `mortonize` holds, the call succeeds and returns
exactly the scatter of the source buffer through the branch-selected
Morton index map. -/
theorem mortonize_success [Inhabited α] (format : Nat) (mo : Int)
    (k width height wf : Nat) (buf : List α) (bpp : Nat)
    (hbpp : dds_bpp format = some bpp)
    (hko : mo.natAbs = k)
    (hbne : dds_bwh format * wf ≠ 0)
    (hlen : width / (dds_bwh format * wf) * (height / dds_bwh format) = buf.length)
    (hw16 : width / (dds_bwh format * wf) < 65536)
    (hh16 : height / dds_bwh format < 65536)
    (hkw : 2 ^ k ∣ width / (dds_bwh format * wf))
    (hkh : 2 ^ k ∣ height / dds_bwh format)
    (hmax : 2 ^ k ≤ max (width / (dds_bwh format * wf)) (height / dds_bwh format)) :
    mortonize format mo width height buf wf =
      some (scatter (fun i =>
        if mo < 0 then mortonRevIdx k (width / (dds_bwh format * wf)) i
        else mortonFwdIdx k (width / (dds_bwh format * wf)) i) buf) := by
  subst hko
  have hbits : (bpp * dds_bwh format * dds_bwh format * wf) % 8 = 0 :=
    dds_bits_mod8 format bpp wf hbpp
  have hT1 : (1 <<< mo.natAbs : Nat) = 2 ^ mo.natAbs := by
    rw [Nat.shiftLeft_eq, Nat.one_mul]
  have hwmod : width / (dds_bwh format * wf) % (1 <<< mo.natAbs) = 0 := by
    rw [hT1]; exact Nat.mod_eq_zero_of_dvd hkw
  have hhmod : height / dds_bwh format % (1 <<< mo.natAbs) = 0 := by
    rw [hT1]; exact Nat.mod_eq_zero_of_dvd hkh
  have hguard : ∀ i ∈ List.range buf.length,
      (if mo < 0 then mortonRevIdx mo.natAbs (width / (dds_bwh format * wf)) i
       else mortonFwdIdx mo.natAbs (width / (dds_bwh format * wf)) i) < buf.length := by
    intro i hi
    rw [List.mem_range, ← hlen] at hi
    rw [← hlen]
    have hm := morton_maps_spec mo.natAbs (width / (dds_bwh format * wf))
      (height / dds_bwh format) i hkw hkh hw16 hh16 hi
    by_cases hrev : mo < 0
    · rw [if_pos hrev]; exact hm.2.2.1
    · rw [if_neg hrev]; exact hm.1
  rw [mortonize_unfold format mo width height wf buf bpp hbpp,
      if_neg hbne, if_neg (not_not_intro hbits), if_neg (not_not_intro hlen),
      if_neg (not_not_intro ⟨hw16, hh16⟩), if_neg (not_not_intro hwmod),
      if_neg (not_not_intro hhmod), if_neg (not_not_intro hmax), if_pos hguard]

/-- **C1.** For every texture format with a defined bit depth, Morton
order `k ≥ 1`, and a buffer whose element count equals the element-grid
`width * height` with both element dimensions valid (positive, below
65536) exact multiples of `2^k`, applying the reverse Morton transform
(order `-k`) to the result of the forward transform (order `k`) with the
same format, width, height and width factor returns the original
buffer. -/
theorem mortonize_roundtrip [Inhabited α] (format k width height wf : Nat)
    (buf : List α) (bpp : Nat)
    (hbpp : dds_bpp format = some bpp)
    (hwf : 0 < wf)
    (hk : 1 ≤ k)
    (hkw : 2 ^ k ∣ width / (dds_bwh format * wf))
    (hkh : 2 ^ k ∣ height / dds_bwh format)
    (hw0 : 0 < width / (dds_bwh format * wf))
    (hh0 : 0 < height / dds_bwh format)
    (hw16 : width / (dds_bwh format * wf) < 65536)
    (hh16 : height / dds_bwh format < 65536)
    (hlen : width / (dds_bwh format * wf) * (height / dds_bwh format) = buf.length) :
    (mortonize format (k : Int) width height buf wf).bind
      (fun b => mortonize format (-(k : Int)) width height b wf) = some buf := by
  have hbne : dds_bwh format * wf ≠ 0 :=
    Nat.mul_ne_zero (Nat.pos_iff_ne_zero.1 (dds_bwh_pos format))
      (Nat.pos_iff_ne_zero.1 hwf)
  have hmax1 : 2 ^ k ≤ max (width / (dds_bwh format * wf)) (height / dds_bwh format) :=
    le_trans (Nat.le_of_dvd hw0 hkw) (le_max_left _ _)
  have hna1 : ((k : Int)).natAbs = k := Int.natAbs_ofNat k
  have hna2 : (-(k : Int)).natAbs = k := by rw [Int.natAbs_neg, Int.natAbs_ofNat]
  have hrev1 : ¬ ((k : Int) < 0) := Int.not_lt.2 (Int.natCast_nonneg k)
  have hrev2 : (-(k : Int)) < 0 := by
    rw [neg_lt_zero]
    exact_mod_cast hk
  have hF : ∀ i, i < buf.length →
      mortonFwdIdx k (width / (dds_bwh format * wf)) i < buf.length := by
    intro i hi
    rw [← hlen] at hi ⊢
    exact (morton_maps_spec k _ _ i hkw hkh hw16 hh16 hi).1
  have hR : ∀ i, i < buf.length →
      mortonRevIdx k (width / (dds_bwh format * wf)) i < buf.length := by
    intro i hi
    rw [← hlen] at hi ⊢
    exact (morton_maps_spec k _ _ i hkw hkh hw16 hh16 hi).2.2.1
  have hRF : ∀ i, i < buf.length →
      mortonRevIdx k (width / (dds_bwh format * wf))
        (mortonFwdIdx k (width / (dds_bwh format * wf)) i) = i := by
    intro i hi
    rw [← hlen] at hi
    exact (morton_maps_spec k _ _ i hkw hkh hw16 hh16 hi).2.1
  have hFR : ∀ i, i < buf.length →
      mortonFwdIdx k (width / (dds_bwh format * wf))
        (mortonRevIdx k (width / (dds_bwh format * wf)) i) = i := by
    intro i hi
    rw [← hlen] at hi
    exact (morton_maps_spec k _ _ i hkw hkh hw16 hh16 hi).2.2.2
  have hmain : ∀ b : List α, b.length = buf.length →
      mortonize format (-(k : Int)) width height b wf =
        some (scatter (fun i =>
          if (-(k : Int)) < 0 then mortonRevIdx k (width / (dds_bwh format * wf)) i
          else mortonFwdIdx k (width / (dds_bwh format * wf)) i) b) := by
    intro b hb
    exact mortonize_success format (-(k : Int)) k width height wf b bpp hbpp hna2
      hbne (by rw [hb]; exact hlen) hw16 hh16 hkw hkh hmax1
  rw [mortonize_success format ((k : Nat) : Int) k width height wf buf bpp hbpp hna1
        hbne hlen hw16 hh16 hkw hkh hmax1,
      Option.some_bind, hmain _ (scatter_length _ _)]
  refine congrArg some (scatter_scatter _ _ buf ?_ ?_ ?_ ?_)
  · intro i hi
    rw [if_neg hrev1]
    exact hF i hi
  · intro i hi
    rw [if_pos hrev2]
    exact hR i hi
  · intro i hi
    rw [if_neg hrev1, if_pos hrev2]
    exact hRF i hi
  · intro i hi
    rw [if_pos hrev2, if_neg hrev1]
    exact hFR i hi

/-- Witness for C1: an 8-bit 4x4 texture, Morton order 2, round-trips. -/
theorem mortonize_roundtrip_witness :
    (mortonize DDS_FORMAT_R8 ((2 : Nat) : Int) 4 4 (List.range 16) 1).bind
      (fun b => mortonize DDS_FORMAT_R8 (-((2 : Nat) : Int)) 4 4 b 1) =
      some (List.range 16) :=
  mortonize_roundtrip DDS_FORMAT_R8 2 4 4 1 (List.range 16) 8 (by decide) (by decide)
    (by decide) (by decide) (by decide) (by decide) (by decide) (by decide) (by decide)
    (by decide)

/-- Counterexample to C8 as stated: an R8 2x2 texture with Morton order 1.
The claim's preconditions all hold — width 2 and height 2 are multiples of
`2^1`, `2^1 ≤ min 2 2` (i.e. `k ≤ log2(min(w, h))`), and the element byte
size 1 divides the 8-element buffer size — yet `mortonize` still dies on
an assert, because the code demands that the element count EQUAL
`width * height` (here 4 ≠ 8), not merely that the element size divide
the buffer size. -/
theorem mortonize_counterexample :
    2 % 2 ^ 1 = 0 ∧ 2 % 2 ^ 1 = 0 ∧ 2 ^ 1 ≤ min 2 2 ∧
    (8 * dds_bwh DDS_FORMAT_R8 * dds_bwh DDS_FORMAT_R8 * 1 / 8) ∣
      (List.replicate 8 (0 : Nat)).length ∧
    mortonize DDS_FORMAT_R8 (1 : Int) 2 2 (List.replicate 8 (0 : Nat)) 1 = none := by
  decide

/-- **C8 (amended).** Characterisation of the asserted preconditions of
`mortonize`: the transform runs without any assert firing exactly when
the format's bit depth is defined, the block/width-factor divisor is
non-zero, the element bit size is a multiple of 8, the element count
EQUALS `w * h` exactly, both element dimensions are below 65536 and
multiples of `2^k`, and `2^k` does not exceed the MAXIMUM of the two
element dimensions. -/
theorem mortonize_preconditions [Inhabited α] (format : Nat) (mo : Int)
    (width height wf : Nat) (buf : List α) :
    (∃ out, mortonize format mo width height buf wf = some out) ↔
      (∃ bpp, dds_bpp format = some bpp ∧
        dds_bwh format * wf ≠ 0 ∧
        (bpp * dds_bwh format * dds_bwh format * wf) % 8 = 0 ∧
        width / (dds_bwh format * wf) * (height / dds_bwh format) = buf.length ∧
        width / (dds_bwh format * wf) < 65536 ∧
        height / dds_bwh format < 65536 ∧
        width / (dds_bwh format * wf) % 2 ^ mo.natAbs = 0 ∧
        height / dds_bwh format % 2 ^ mo.natAbs = 0 ∧
        2 ^ mo.natAbs ≤ max (width / (dds_bwh format * wf)) (height / dds_bwh format)) := by
  have hT1 : (1 <<< mo.natAbs : Nat) = 2 ^ mo.natAbs := by
    rw [Nat.shiftLeft_eq, Nat.one_mul]
  constructor
  · rintro ⟨out, hout⟩
    cases hbppo : dds_bpp format with
    | none =>
      have hnone : mortonize format mo width height buf wf = (none : Option (List α)) := by
        unfold mortonize
        rw [hbppo]
      rw [hnone] at hout
      cases hout
    | some bpp =>
      rw [mortonize_unfold format mo width height wf buf bpp hbppo] at hout
      by_cases h1 : dds_bwh format * wf = 0
      · rw [if_pos h1] at hout; cases hout
      rw [if_neg h1] at hout
      by_cases h2 : (bpp * dds_bwh format * dds_bwh format * wf) % 8 ≠ 0
      · rw [if_pos h2] at hout; cases hout
      rw [if_neg h2] at hout
      by_cases h3 : width / (dds_bwh format * wf) * (height / dds_bwh format) ≠ buf.length
      · rw [if_pos h3] at hout; cases hout
      rw [if_neg h3] at hout
      by_cases h4 : ¬ (width / (dds_bwh format * wf) < 65536 ∧
          height / dds_bwh format < 65536)
      · rw [if_pos h4] at hout; cases hout
      rw [if_neg h4] at hout
      by_cases h5 : width / (dds_bwh format * wf) % (1 <<< mo.natAbs) ≠ 0
      · rw [if_pos h5] at hout; cases hout
      rw [if_neg h5] at hout
      by_cases h6 : height / dds_bwh format % (1 <<< mo.natAbs) ≠ 0
      · rw [if_pos h6] at hout; cases hout
      rw [if_neg h6] at hout
      by_cases h7 : ¬ (2 ^ mo.natAbs ≤
          max (width / (dds_bwh format * wf)) (height / dds_bwh format))
      · rw [if_pos h7] at hout; cases hout
      push_neg at h2 h3 h4 h5 h6 h7
      rw [hT1] at h5 h6
      exact ⟨bpp, rfl, h1, h2, h3, h4.1, h4.2, h5, h6, h7⟩
  · rintro ⟨bpp, hbpp, h1, _, h3, h4, h5, h6, h7, h8⟩
    exact ⟨_, mortonize_success format mo mo.natAbs width height wf buf bpp hbpp rfl
      h1 h3 h4 h5 (Nat.dvd_of_mod_eq_zero h6) (Nat.dvd_of_mod_eq_zero h7) h8⟩

/-- Witness for C8: a DXT1 16x16 texture with a correctly sized 16-block
buffer satisfies every asserted precondition, so `mortonize` succeeds. -/
theorem mortonize_preconditions_witness :
    ∃ out, mortonize DDS_FORMAT_DXT1 (1 : Int) 16 16 (List.replicate 16 (0 : Nat)) 1 =
      some out :=
  (mortonize_preconditions DDS_FORMAT_DXT1 (1 : Int) 16 16 1
      (List.replicate 16 (0 : Nat))).2
    ⟨4, by decide, by decide, by decide, by decide, by decide, by decide, by decide,
      by decide, by decide⟩

/-- **C10.** For every call to `mortonize` whose parameters satisfy its
asserted preconditions, every destination index computed by the copy loop
is strictly below the element count, the branch-selected index map is a
bijection on the index range (the opposite-branch map is its two-sided
inverse), and consequently the call succeeds with an output buffer that is
a permutation of the input of the same length. -/
theorem mortonize_bijection [Inhabited α] (format : Nat) (mo : Int)
    (k width height wf : Nat) (buf : List α) (bpp : Nat)
    (hbpp : dds_bpp format = some bpp)
    (hko : mo.natAbs = k)
    (hwf : 0 < wf)
    (hkw : 2 ^ k ∣ width / (dds_bwh format * wf))
    (hkh : 2 ^ k ∣ height / dds_bwh format)
    (hw16 : width / (dds_bwh format * wf) < 65536)
    (hh16 : height / dds_bwh format < 65536)
    (hlen : width / (dds_bwh format * wf) * (height / dds_bwh format) = buf.length)
    (hmax : 2 ^ k ≤ max (width / (dds_bwh format * wf)) (height / dds_bwh format)) :
    (∀ i, i < buf.length →
      (if mo < 0 then mortonRevIdx k (width / (dds_bwh format * wf)) i
       else mortonFwdIdx k (width / (dds_bwh format * wf)) i) < buf.length ∧
      (if mo < 0 then
         mortonFwdIdx k (width / (dds_bwh format * wf))
           (mortonRevIdx k (width / (dds_bwh format * wf)) i)
       else
         mortonRevIdx k (width / (dds_bwh format * wf))
           (mortonFwdIdx k (width / (dds_bwh format * wf)) i)) = i) ∧
    ∃ out, mortonize format mo width height buf wf = some out ∧
      out.length = buf.length ∧ out.Perm buf := by
  have hbne : dds_bwh format * wf ≠ 0 :=
    Nat.mul_ne_zero (Nat.pos_iff_ne_zero.1 (dds_bwh_pos format))
      (Nat.pos_iff_ne_zero.1 hwf)
  have hF : ∀ i, i < buf.length →
      mortonFwdIdx k (width / (dds_bwh format * wf)) i < buf.length := by
    intro i hi
    rw [← hlen] at hi ⊢
    exact (morton_maps_spec k _ _ i hkw hkh hw16 hh16 hi).1
  have hR : ∀ i, i < buf.length →
      mortonRevIdx k (width / (dds_bwh format * wf)) i < buf.length := by
    intro i hi
    rw [← hlen] at hi ⊢
    exact (morton_maps_spec k _ _ i hkw hkh hw16 hh16 hi).2.2.1
  have hRF : ∀ i, i < buf.length →
      mortonRevIdx k (width / (dds_bwh format * wf))
        (mortonFwdIdx k (width / (dds_bwh format * wf)) i) = i := by
    intro i hi
    rw [← hlen] at hi
    exact (morton_maps_spec k _ _ i hkw hkh hw16 hh16 hi).2.1
  have hFR : ∀ i, i < buf.length →
      mortonFwdIdx k (width / (dds_bwh format * wf))
        (mortonRevIdx k (width / (dds_bwh format * wf)) i) = i := by
    intro i hi
    rw [← hlen] at hi
    exact (morton_maps_spec k _ _ i hkw hkh hw16 hh16 hi).2.2.2
  constructor
  · intro i hi
    by_cases hrev : mo < 0
    · rw [if_pos hrev, if_pos hrev]
      exact ⟨hR i hi, hFR i hi⟩
    · rw [if_neg hrev, if_neg hrev]
      exact ⟨hF i hi, hRF i hi⟩
  · refine ⟨_, mortonize_success format mo k width height wf buf bpp hbpp hko hbne
        hlen hw16 hh16 hkw hkh hmax, scatter_length _ _, ?_⟩
    refine scatter_perm _
      (fun i => if mo < 0 then mortonFwdIdx k (width / (dds_bwh format * wf)) i
                else mortonRevIdx k (width / (dds_bwh format * wf)) i) buf ?_ ?_ ?_ ?_
    · intro i hi
      dsimp only
      by_cases hrev : mo < 0
      · rw [if_pos hrev]; exact hR i hi
      · rw [if_neg hrev]; exact hF i hi
    · intro i hi
      dsimp only
      by_cases hrev : mo < 0
      · rw [if_pos hrev]; exact hF i hi
      · rw [if_neg hrev]; exact hR i hi
    · intro i hi
      dsimp only
      by_cases hrev : mo < 0
      · rw [if_pos hrev, if_pos hrev]; exact hFR i hi
      · rw [if_neg hrev, if_neg hrev]; exact hRF i hi
    · intro i hi
      dsimp only
      by_cases hrev : mo < 0
      · rw [if_pos hrev, if_pos hrev]; exact hRF i hi
      · rw [if_neg hrev, if_neg hrev]; exact hFR i hi

/-- Witness for C10: a 32-bit RGBA 2x2 texture with Morton order 1
succeeds and produces a same-length permutation of the input. -/
theorem mortonize_bijection_witness :
    ∃ out, mortonize DDS_FORMAT_RGBA8 (1 : Int) 2 2 ([10, 20, 30, 40] : List Nat) 1 =
        some out ∧
      out.length = ([10, 20, 30, 40] : List Nat).length ∧
      out.Perm [10, 20, 30, 40] :=
  (mortonize_bijection DDS_FORMAT_RGBA8 (1 : Int) 1 2 2 1 [10, 20, 30, 40] 32
    (by decide) (by decide) (by decide) (by decide) (by decide) (by decide) (by decide)
    (by decide) (by decide)).2

end GustTools
